import Mathlib

/-!
Shallow embedding of the XmasShowdown ("Gifts Under Siege") game engine
(`src/xmasshowdown/engine.py`, `models.py`, `rules.py`, `constants.py`).

Python objects become Lean structures; in-place mutation becomes explicit
state passing.  Python list objects are modelled as Lean lists with object
identity represented by list position; Python dataclass `==` (used by the
`land in chosen` test inside `_pay_mana`) is value equality, modelled with
`DecidableEq`.  A Python method that can raise `GameRuleError` mid-mutation
is modelled as returning the (possibly partially mutated) state together
with an optional error, exactly mirroring the statement order of the source.
`created_at` (a wall-clock timestamp) and the uuid generation are not
modelled; decks, gift ids and gift classes enter as explicit parameters
standing for the outcomes of `random.shuffle` / `random.choices`.
-/

namespace XmasShowdown

/-- `constants.Color` -/
inductive Color where
  | white
  | blue
  | black
  | red
  | green
deriving DecidableEq, Repr

/-- `constants.GiftClass` -/
inductive GiftClass where
  | classI
  | classII
  | classIII
deriving DecidableEq, Repr

/-- `constants.BuildingType` -/
inductive BuildingType where
  | thiefsGloves
  | crowbar
  | reinforcedRibbon
  | supplyWarehouse
deriving DecidableEq, Repr

/-- Session status strings `"active"` / `"ended"` used by `engine.py`. -/
inductive Status where
  | active
  | ended
deriving DecidableEq, Repr

/-- The distinct `GameRuleError` messages raised in `engine.py`, one
constructor per raise site message (names follow the spec's violation
taxonomy; the original message is given in the comment). -/
inductive GameRuleError where
  | gameEnded               -- "The game is not active."
  | notYourTurn             -- "It is not your turn."
  | actionAlreadyTaken      -- "You already took a main action this turn."
  | alreadyPlayedLand       -- "You already played a land this turn."
  | landLimitReached        -- "Land limit reached."
  | invalidLandSelection    -- "Invalid land selection."
  | giftNotAvailable        -- "Gift not available."
  | giftNotFound            -- "Gift not found."
  | cannotStealOwnGift      -- "You must steal from another player."
  | giftSealed              -- "That gift is sealed and cannot be stolen."
  | insufficientMana        -- "Not enough untapped lands."
  | insufficientColor       -- "Not enough required color mana."
  | insufficientHandForDiscard -- "Not enough cards in hand to pay lock cost."
  | incorrectDiscardCount   -- "Incorrect number of discard selections."
  | discardSelectionOutOfRange -- "Discard selection out of range."
  | notYourGift             -- "You do not own that gift."
  | buildingAlreadyBuilt    -- "You already built a building."
  | discardAlreadyPending   -- "You must discard before recycling again."
  | noDiscardRequired       -- "No discard is required."
  | invalidDiscardSelection -- "Invalid discard selection."
  | discardRequired         -- "You must discard before ending your turn."
  | deckEmpty               -- "The deck is empty."
  | playerNotFound          -- "Player not found."
deriving DecidableEq, Repr

/-- `models.Land` -/
structure Land where
  color : Color
deriving DecidableEq, Repr

/-- `models.LandInPlay` -/
structure LandInPlay where
  color : Color
  tapped : Bool := false
deriving DecidableEq, Repr

/-- `models.Gift` -/
structure Gift where
  gift_id : String
  color : Color
  gift_class : GiftClass
  locks : Nat := 0
  owner_id : Option String := none
deriving DecidableEq, Repr

/-- `Gift.sealed` property: `self.locks >= 5`. -/
def Gift.sealed (g : Gift) : Bool := 5 ≤ g.locks

/-- `models.PlayerState` -/
structure PlayerState where
  member_id : String
  name : String
  hand : List Land := []
  lands_in_play : List LandInPlay := []
  gifts : List Gift := []
  building : Option BuildingType := none
  pending_discard : Nat := 0
deriving DecidableEq, Repr

/-- `PlayerState.score` property: class I = 1, II = 2, III = 3. -/
def PlayerState.score (p : PlayerState) : Nat :=
  p.gifts.foldl
    (fun acc g =>
      acc + match g.gift_class with
            | .classI => 1
            | .classII => 2
            | .classIII => 3)
    0

/-- `models.TurnState` -/
structure TurnState where
  player_id : String
  number : Nat
  has_played_land : Bool := false
  has_taken_action : Bool := false
deriving DecidableEq, Repr

/-- `models.GameState` (minus `created_at`, an unmodelled timestamp). -/
structure GameState where
  game_id : String
  room_id : String
  status : Status
  players : List PlayerState
  deck : List Land
  gifts_display : List Gift
  turn : TurnState
deriving DecidableEq, Repr

/-- `rules.GameConfig` (counts, so `Nat`; the backend service always
constructs engines with the defaults below). -/
structure GameConfig where
  gifts_in_display : Nat := 8
  initial_hand : Nat := 5
  hand_limit : Nat := 7
  land_limit : Nat := 10
  deck_size_per_color : Nat := 12
  gift_pool_size : Nat := 24
deriving DecidableEq, Repr

def defaultConfig : GameConfig := {}

/-- `rules.GameRules.gift_cost`: (total, required-color amount). -/
def gift_cost : GiftClass → Nat × Nat
  | .classI => (3, 2)
  | .classII => (5, 3)
  | .classIII => (7, 4)

/-- `rules.GameRules.BUILDING_COLOR`. -/
def building_color : BuildingType → Color
  | .thiefsGloves => .black
  | .crowbar => .red
  | .reinforcedRibbon => .green
  | .supplyWarehouse => .blue

/-- `rules.GameRules.building_cost`: (4, 2, colour of the building). -/
def building_cost (b : BuildingType) : Nat × Nat × Color :=
  (4, 2, building_color b)

/-- `rules.GameRules.wrap_cost`. -/
def wrap_cost : Nat := 2

/-! ### Generic list helpers (position = Python object identity) -/

/-- Replace the element at position `i` by `f` of it (no-op out of range),
mirroring in-place mutation of the `i`-th object of a Python list. -/
def modifyIdx {α : Type} : List α → Nat → (α → α) → List α
  | [], _, _ => []
  | a :: l, 0, f => f a :: l
  | a :: l, n + 1, f => a :: modifyIdx l n f

/-- Index of the first element satisfying `p`, scanning left to right. -/
def firstIdx {α : Type} (p : α → Bool) : List α → Option Nat
  | [] => none
  | a :: l => if p a then some 0 else (firstIdx p l).map (· + 1)

/-- Python's `sorted(set(xs), reverse=True)` on integers:
the distinct values in decreasing order. -/
def insertDesc (x : Int) : List Int → List Int
  | [] => [x]
  | y :: ys => if x ≥ y then x :: y :: ys else y :: insertDesc x ys

def dedupInt : List Int → List Int
  | [] => []
  | x :: xs => if x ∈ xs then dedupInt xs else x :: dedupInt xs

def sortedUnique (xs : List Int) : List Int :=
  (dedupInt xs).foldr insertDesc []

/-- Last element of `x :: l` (Python `lst[-1]`). -/
def lastOf (x : Int) : List Int → Int
  | [] => x
  | y :: ys => lastOf y ys

/-- Decidable equality for `Except`, so that results of fallible
operations can be compared computationally. -/
instance {ε α : Type} [DecidableEq ε] [DecidableEq α] :
    DecidableEq (Except ε α) := fun a b =>
  match a, b with
  | .error e, .error f =>
    if h : e = f then .isTrue (by rw [h])
    else .isFalse (by intro hh; cases hh; exact h rfl)
  | .error _, .ok _ => .isFalse (by intro hh; cases hh)
  | .ok _, .error _ => .isFalse (by intro hh; cases hh)
  | .ok x, .ok y =>
    if h : x = y then .isTrue (by rw [h])
    else .isFalse (by intro hh; cases hh; exact h rfl)

/-! ### The resource payment algorithm (`GameEngine._pay_mana`)

Lands in play are addressed by position.  `untapped` pairs each untapped
land with its position; the fill loop's `if land in chosen: continue` is a
Python list membership test, i.e. dataclass *value* equality on
`LandInPlay`, reproduced here by comparing the `LandInPlay` values, not the
positions. -/

def enumLands (lands : List LandInPlay) : List (Nat × LandInPlay) :=
  (List.range lands.length).zip lands

/-- The fill loop of `_pay_mana`:
`for land in untapped: if land in chosen: continue; chosen.append(land);
remaining -= 1; if remaining == 0: break`. -/
def fillChosen : List (Nat × LandInPlay) → List (Nat × LandInPlay) → Nat →
    List (Nat × LandInPlay)
  | [], chosen, _ => chosen
  | p :: rest, chosen, r =>
    match r with
    | 0 => chosen
    | r' + 1 =>
      if chosen.any (fun q => q.2 = p.2) then fillChosen rest chosen (r' + 1)
      else fillChosen rest (chosen ++ [p]) r'

/-- `for land in chosen: land.tapped = True`, by position. -/
def tapAt (lands : List LandInPlay) (idxs : List Nat) : List LandInPlay :=
  (enumLands lands).map fun p =>
    if idxs.contains p.1 then { p.2 with tapped := true } else p.2

/-- `GameEngine._pay_mana` applied to a player's `lands_in_play`.  All its
raises happen before any mutation, so `Except` is faithful here. -/
def pay_mana (lands : List LandInPlay) (total_cost : Nat)
    (color : Option Color) (color_req : Nat) :
    Except GameRuleError (List LandInPlay) :=
  let untapped := (enumLands lands).filter fun p => p.2.tapped = false
  if untapped.length < total_cost then .error .insufficientMana
  else
    let chosen0 : Except GameRuleError (List (Nat × LandInPlay)) :=
      match color with
      | some c =>
        if 0 < color_req then
          let color_matches := untapped.filter fun p => p.2.color = c
          if color_matches.length < color_req then .error .insufficientColor
          else .ok (color_matches.take color_req)
        else .ok []
      | none => .ok []
    match chosen0 with
    | .error e => .error e
    | .ok ch =>
      let chosen := fillChosen untapped ch (total_cost - ch.length)
      .ok (tapAt lands (chosen.map (·.1)))

/-! ### State plumbing -/

def defaultPlayer : PlayerState := { member_id := "", name := "" }

/-- Mutate the `i`-th player in place. -/
def updatePlayer (s : GameState) (i : Nat) (f : PlayerState → PlayerState) :
    GameState :=
  { s with players := modifyIdx s.players i f }

/-- `GameEngine._find_player` / `GameEngine._player_index`: index of the
first player whose `member_id` matches. -/
def playerIndex (players : List PlayerState) (pid : String) : Option Nat :=
  firstIdx (fun p => p.member_id = pid) players

/-- `GameEngine._find_display_gift`: first display gift with the id. -/
def find_display_gift (s : GameState) (gift_id : String) : Option Gift :=
  s.gifts_display.find? fun g => g.gift_id = gift_id

/-- `GameEngine._find_player_gift`: position of the first owned gift with
the id in the player's `gifts` list. -/
def find_player_gift (p : PlayerState) (gift_id : String) : Option Nat :=
  firstIdx (fun g => g.gift_id = gift_id) p.gifts

/-- `GameEngine._find_owned_gift`: scan players in order, each player's
gifts in order; return the owner's index and the gift. -/
def find_owned_gift (players : List PlayerState) (gift_id : String) :
    Option (Nat × Gift) :=
  match players with
  | [] => none
  | p :: rest =>
    match p.gifts.find? (fun g => g.gift_id = gift_id) with
    | some g => some (0, g)
    | none => (find_owned_gift rest gift_id).map fun q => (q.1 + 1, q.2)

/-- A method result: the state after execution — partially mutated when an
exception was raised — together with the optional raised error. -/
abbrev EngineRes := GameState × Option GameRuleError

/-- The loop body of `GameEngine._draw_cards` for the `i`-th player:
draws one at a time; on an empty deck flips status to ended and raises,
keeping the draws already made. -/
def drawLoop (i : Nat) : Nat → GameState → EngineRes
  | 0, s => (s, none)
  | n + 1, s =>
    match s.deck with
    | [] => ({ s with status := .ended }, some .deckEmpty)
    | card :: rest =>
      drawLoop i n
        (updatePlayer { s with deck := rest } i
          fun p => { p with hand := p.hand ++ [card] })

/-- `GameEngine._draw_cards`. -/
def draw_cards (s : GameState) (i count : Nat) : EngineRes :=
  drawLoop i count s

/-- `GameEngine._start_turn`: untap the turn owner's lands, draw 1. -/
def start_turn (s : GameState) : EngineRes :=
  match playerIndex s.players s.turn.player_id with
  | none => (s, some .playerNotFound)
  | some i =>
    draw_cards
      (updatePlayer s i fun p =>
        { p with lands_in_play :=
            p.lands_in_play.map fun l => { l with tapped := false } })
      i 1

/-- `GameEngine._advance_turn`. -/
def advance_turn (s : GameState) : EngineRes :=
  match playerIndex s.players s.turn.player_id with
  | none => (s, some .playerNotFound)
  | some current_index =>
    let next_index := (current_index + 1) % s.players.length
    let next_player_id := (s.players.getD next_index defaultPlayer).member_id
    start_turn
      { s with turn :=
          { player_id := next_player_id, number := s.turn.number + 1 } }

/-- `GameEngine._require_turn` (pure guard: the error it would raise). -/
def require_turn (s : GameState) (pid : String) : Option GameRuleError :=
  if s.status ≠ .active then some .gameEnded
  else if s.turn.player_id ≠ pid then some .notYourTurn
  else none

/-- `GameEngine._require_turn_action`. -/
def require_turn_action (s : GameState) (pid : String) :
    Option GameRuleError :=
  match require_turn s pid with
  | some e => some e
  | none =>
    if s.turn.has_taken_action then some .actionAlreadyTaken else none

/-! ### The engine action methods -/

/-- `GameEngine.play_land`.  The index arrives as a Python `int` and may be
negative, so it is an `Int` here. -/
def play_land (cfg : GameConfig) (s : GameState) (pid : String)
    (index : Int) : EngineRes :=
  match require_turn s pid with
  | some e => (s, some e)
  | none =>
  match playerIndex s.players pid with
  | none => (s, some .playerNotFound)
  | some i =>
    let player := s.players.getD i defaultPlayer
    if s.turn.has_played_land then (s, some .alreadyPlayedLand)
    else if cfg.land_limit ≤ player.lands_in_play.length then
      (s, some .landLimitReached)
    else if index < 0 ∨ (player.hand.length : Int) ≤ index then
      (s, some .invalidLandSelection)
    else
      let j := index.toNat
      let land := player.hand.getD j { color := .white }
      let s1 := updatePlayer s i fun p =>
        { p with
          hand := p.hand.eraseIdx j
          lands_in_play := p.lands_in_play ++ [{ color := land.color }] }
      ({ s1 with turn := { s1.turn with has_played_land := true } }, none)

/-- `GameEngine.claim_gift`. -/
def claim_gift (s : GameState) (pid : String) (gift_id : String) :
    EngineRes :=
  match require_turn_action s pid with
  | some e => (s, some e)
  | none =>
  match playerIndex s.players pid with
  | none => (s, some .playerNotFound)
  | some i =>
    match find_display_gift s gift_id with
    | none => (s, some .giftNotAvailable)
    | some gift =>
      let cost := gift_cost gift.gift_class
      let player := s.players.getD i defaultPlayer
      match pay_mana player.lands_in_play cost.1 (some gift.color) cost.2 with
      | .error e => (s, some e)
      | .ok lands =>
        let g := { gift with
                   owner_id := some pid
                   locks := min 5 (gift.locks + 1) }
        let s1 := updatePlayer s i fun p =>
          { p with lands_in_play := lands, gifts := p.gifts ++ [g] }
        let s2 := { s1 with
          gifts_display :=
            s1.gifts_display.filter fun x => x.gift_id ≠ gift_id }
        ({ s2 with turn := { s2.turn with has_taken_action := true } }, none)

/-- The explicit-indices discard loop of `GameEngine.steal_gift`:
`for index in unique_indices: if index < 0 or index >= len(hand): raise;
hand.pop(index)`.  An in-loop raise keeps the pops already made. -/
def popIndicesLoop : List Int → List Land → List Land × Option GameRuleError
  | [], hand => (hand, none)
  | i :: rest, hand =>
    if i < 0 ∨ (hand.length : Int) ≤ i then
      (hand, some .discardSelectionOutOfRange)
    else popIndicesLoop rest (hand.eraseIdx i.toNat)

/-- `GameEngine.steal_gift`.  Note the source pays mana *before* checking
the hand against the lock-discard cost, so a failure of that check leaves
the requester's lands tapped. -/
def steal_gift (s : GameState) (pid : String) (gift_id : String)
    (add_lock : Bool) (discard_indices : Option (List Int)) : EngineRes :=
  match require_turn_action s pid with
  | some e => (s, some e)
  | none =>
  match playerIndex s.players pid with
  | none => (s, some .playerNotFound)
  | some i =>
    match find_owned_gift s.players gift_id with
    | none => (s, some .giftNotFound)
    | some (j, gift) =>
      let owner := s.players.getD j defaultPlayer
      if owner.member_id = pid then (s, some .cannotStealOwnGift)
      else if gift.sealed then (s, some .giftSealed)
      else
        let cost := gift_cost gift.gift_class
        let player := s.players.getD i defaultPlayer
        match pay_mana player.lands_in_play cost.1 (some gift.color) cost.2 with
        | .error e => (s, some e)
        | .ok lands =>
          -- the payment is committed in place before the discard checks
          let s1 := updatePlayer s i fun p => { p with lands_in_play := lands }
          let discard_count :=
            if player.building = some .thiefsGloves then gift.locks - 2
            else gift.locks
          if player.hand.length < discard_count then
            (s1, some .insufficientHandForDiscard)
          else
            let afterDiscard : GameState × Option GameRuleError :=
              match discard_indices with
              | none =>
                (updatePlayer s1 i fun p =>
                  { p with hand := p.hand.drop discard_count }, none)
              | some idxs =>
                let unique_indices := sortedUnique idxs
                if unique_indices.length ≠ discard_count then
                  (s1, some .incorrectDiscardCount)
                else
                  let bad :=
                    match unique_indices with
                    | [] => false
                    | u0 :: rest =>
                      decide ((player.hand.length : Int) ≤ u0) ||
                        decide (lastOf u0 rest < 0)
                  if bad then (s1, some .discardSelectionOutOfRange)
                  else
                    let r := popIndicesLoop unique_indices player.hand
                    (updatePlayer s1 i fun p => { p with hand := r.1 }, r.2)
            match afterDiscard with
            | (s2, some e) => (s2, some e)
            | (s2, none) =>
              let s3 := updatePlayer s2 j fun p =>
                { p with gifts := p.gifts.filter fun g => g.gift_id ≠ gift_id }
              let g1 := { gift with owner_id := some pid }
              let g2 :=
                if add_lock ∧ player.building = some .crowbar then
                  { g1 with locks := min 5 (g1.locks + 1) }
                else g1
              let s4 := updatePlayer s3 i fun p =>
                { p with gifts := p.gifts ++ [g2] }
              ({ s4 with
                 turn := { s4.turn with has_taken_action := true } }, none)

/-- `GameEngine.wrap_gift`. -/
def wrap_gift (s : GameState) (pid : String) (gift_id : String) :
    EngineRes :=
  match require_turn_action s pid with
  | some e => (s, some e)
  | none =>
  match playerIndex s.players pid with
  | none => (s, some .playerNotFound)
  | some i =>
    let player := s.players.getD i defaultPlayer
    match find_player_gift player gift_id with
    | none => (s, some .notYourGift)
    | some k =>
      match pay_mana player.lands_in_play wrap_cost none 0 with
      | .error e => (s, some e)
      | .ok lands =>
        let add_locks : Nat :=
          if player.building = some .reinforcedRibbon then 2 else 1
        let s1 := updatePlayer s i fun p =>
          { p with
            lands_in_play := lands
            gifts := modifyIdx p.gifts k fun g =>
              { g with locks := min 5 (g.locks + add_locks) } }
        ({ s1 with turn := { s1.turn with has_taken_action := true } }, none)

/-- `GameEngine.build_building`. -/
def build_building (s : GameState) (pid : String) (b : BuildingType) :
    EngineRes :=
  match require_turn_action s pid with
  | some e => (s, some e)
  | none =>
  match playerIndex s.players pid with
  | none => (s, some .playerNotFound)
  | some i =>
    let player := s.players.getD i defaultPlayer
    if player.building.isSome then (s, some .buildingAlreadyBuilt)
    else
      let cost := building_cost b
      match pay_mana player.lands_in_play cost.1 (some cost.2.2) cost.2.1 with
      | .error e => (s, some e)
      | .ok lands =>
        let s1 := updatePlayer s i fun p =>
          { p with lands_in_play := lands, building := some b }
        ({ s1 with turn := { s1.turn with has_taken_action := true } }, none)

/-- `GameEngine.recycle`. -/
def recycle (s : GameState) (pid : String) : EngineRes :=
  match require_turn_action s pid with
  | some e => (s, some e)
  | none =>
  match playerIndex s.players pid with
  | none => (s, some .playerNotFound)
  | some i =>
    let player := s.players.getD i defaultPlayer
    if 0 < player.pending_discard then (s, some .discardAlreadyPending)
    else
      let count : Nat :=
        if player.building = some .supplyWarehouse then 2 else 1
      match draw_cards s i count with
      | (s1, some e) => (s1, some e)
      | (s1, none) =>
        let s2 := updatePlayer s1 i fun p => { p with pending_discard := 1 }
        ({ s2 with turn := { s2.turn with has_taken_action := true } }, none)

/-- `GameEngine.discard_from_hand`. -/
def discard_from_hand (s : GameState) (pid : String) (index : Int) :
    EngineRes :=
  match require_turn s pid with
  | some e => (s, some e)
  | none =>
  match playerIndex s.players pid with
  | none => (s, some .playerNotFound)
  | some i =>
    let player := s.players.getD i defaultPlayer
    if player.pending_discard = 0 then (s, some .noDiscardRequired)
    else if index < 0 ∨ (player.hand.length : Int) ≤ index then
      (s, some .invalidDiscardSelection)
    else
      (updatePlayer s i fun p =>
        { p with
          hand := p.hand.eraseIdx index.toNat
          pending_discard := p.pending_discard - 1 }, none)

/-- `GameEngine.end_turn`. -/
def end_turn (cfg : GameConfig) (s : GameState) (pid : String) : EngineRes :=
  match require_turn s pid with
  | some e => (s, some e)
  | none =>
  match playerIndex s.players pid with
  | none => (s, some .playerNotFound)
  | some i =>
    let player := s.players.getD i defaultPlayer
    if 0 < player.pending_discard then (s, some .discardRequired)
    else
      let s1 :=
        if cfg.hand_limit < player.hand.length then
          updatePlayer s i fun p => { p with hand := p.hand.take cfg.hand_limit }
        else s
      advance_turn s1

/-! ### The state projector (`GameEngine.serialize_state`) -/

structure LandView where
  color : Color
  tapped : Bool
deriving DecidableEq, Repr

structure GiftView where
  gift_id : String
  color : Color
  gift_class : GiftClass
  locks : Nat
  owner_id : Option String
  sealed : Bool
deriving DecidableEq, Repr

structure PlayerView where
  member_id : String
  name : String
  score : Nat
  hand_count : Nat
  lands_in_play : List LandView
  gifts : List GiftView
  building : Option BuildingType
deriving DecidableEq, Repr

structure ViewerView where
  member_id : String
  name : String
  hand : List Color
  lands_in_play : List LandView
  building : Option BuildingType
  pending_discard : Nat
deriving DecidableEq, Repr

structure TurnView where
  player_id : String
  number : Nat
  has_played_land : Bool
  has_taken_action : Bool
deriving DecidableEq, Repr

/-- The snapshot dictionary returned by `serialize_state` (minus
`created_at`, the unmodelled timestamp echoed verbatim). -/
structure Snapshot where
  game_id : String
  room_id : String
  status : Status
  turn : TurnView
  players : List PlayerView
  gifts_display : List GiftView
  viewer : ViewerView
  deck_count : Nat
deriving DecidableEq, Repr

/-- `GameEngine._serialize_gift`. -/
def serialize_gift (g : Gift) : GiftView :=
  { gift_id := g.gift_id
    color := g.color
    gift_class := g.gift_class
    locks := g.locks
    owner_id := g.owner_id
    sealed := g.sealed }

def landView (l : LandInPlay) : LandView :=
  { color := l.color, tapped := l.tapped }

/-- Public per-player block of the snapshot: hand appears as a count. -/
def playerView (p : PlayerState) : PlayerView :=
  { member_id := p.member_id
    name := p.name
    score := p.score
    hand_count := p.hand.length
    lands_in_play := p.lands_in_play.map landView
    gifts := p.gifts.map serialize_gift
    building := p.building }

/-- `GameEngine.serialize_state`; `none` when `_find_player(viewer_id)`
raises. -/
def serialize_state (s : GameState) (viewer_id : String) : Option Snapshot :=
  match playerIndex s.players viewer_id with
  | none => none
  | some i =>
    let viewer := s.players.getD i defaultPlayer
    some
      { game_id := s.game_id
        room_id := s.room_id
        status := s.status
        turn :=
          { player_id := s.turn.player_id
            number := s.turn.number
            has_played_land := s.turn.has_played_land
            has_taken_action := s.turn.has_taken_action }
        players := s.players.map playerView
        gifts_display := s.gifts_display.map serialize_gift
        viewer :=
          { member_id := viewer.member_id
            name := viewer.name
            hand := viewer.hand.map (·.color)
            lands_in_play := viewer.lands_in_play.map landView
            building := viewer.building
            pending_discard := viewer.pending_discard }
        deck_count := s.deck.length }

/-! ### Session construction (`GameEngine.__init__` / `_setup_game`)

The deck and the gift pool are produced by `random.shuffle` /
`random.choices`; they enter here as explicit parameters standing for the
random outcomes. -/

/-- A gift produced by `_build_gifts`: fresh, zero locks, unowned. -/
def mkGift (spec : String × Color × GiftClass) : Gift :=
  { gift_id := spec.1, color := spec.2.1, gift_class := spec.2.2 }

/-- The initial-hand draws of `_setup_game`, one player at a time; a raise
mid-way propagates with the partial state. -/
def drawEach (cfg : GameConfig) : List Nat → GameState → EngineRes
  | [], s => (s, none)
  | i :: rest, s =>
    match draw_cards s i cfg.initial_hand with
    | (s1, some e) => (s1, some e)
    | (s1, none) => drawEach cfg rest s1

/-- `GameEngine.__init__` followed by `_setup_game`, for a given room,
member list, shuffled deck and gift-pool outcome. -/
def initGame (cfg : GameConfig) (room_id : String)
    (members : List (String × String)) (deck : List Land)
    (gift_specs : List (String × Color × GiftClass)) : EngineRes :=
  let s0 : GameState :=
    { game_id := ""
      room_id := room_id
      status := .active
      players := members.map fun m => { member_id := m.1, name := m.2 }
      deck := deck
      gifts_display := (gift_specs.map mkGift).take cfg.gifts_in_display
      turn := { player_id := "", number := 0 } }
  match drawEach cfg (List.range s0.players.length) s0 with
  | (s1, some e) => (s1, some e)
  | (s1, none) =>
    start_turn
      { s1 with turn :=
          { player_id := (s1.players.getD 0 defaultPlayer).member_id
            number := 1 } }

/-! ### The engine-level action alphabet and reachability -/

/-- One externally submitted action, at the engine-method level (after the
dispatcher's payload-shape validation in `actions.py`). -/
inductive Action where
  | play_land (pid : String) (index : Int)
  | claim_gift (pid : String) (gift_id : String)
  | steal_gift (pid : String) (gift_id : String) (add_lock : Bool)
      (discard_indices : Option (List Int))
  | wrap_gift (pid : String) (gift_id : String)
  | build_building (pid : String) (b : BuildingType)
  | recycle (pid : String)
  | discard (pid : String) (index : Int)
  | end_turn (pid : String)
deriving DecidableEq, Repr

/-- Apply one engine action. -/
def step (cfg : GameConfig) (s : GameState) : Action → EngineRes
  | .play_land pid index => play_land cfg s pid index
  | .claim_gift pid gift_id => claim_gift s pid gift_id
  | .steal_gift pid gift_id add_lock idxs =>
      steal_gift s pid gift_id add_lock idxs
  | .wrap_gift pid gift_id => wrap_gift s pid gift_id
  | .build_building pid b => build_building s pid b
  | .recycle pid => recycle s pid
  | .discard pid index => discard_from_hand s pid index
  | .end_turn pid => end_turn cfg s pid

/-- States a session can be in: the result of construction (even a failed
one, whose state is a superset of what the service would ever register),
closed under applying actions — including failing ones, since a raise can
leave a partially mutated state behind. -/
inductive Reachable (cfg : GameConfig) : GameState → Prop where
  | init : ∀ room members deck gifts s r,
      members ≠ [] → initGame cfg room members deck gifts = (s, r) →
      Reachable cfg s
  | step : ∀ s a s1 r,
      Reachable cfg s → step cfg s a = (s1, r) → Reachable cfg s1

/-! ## Helper lemmas -/

/-- A failing draw always reports the empty deck and flips the status. -/
theorem drawLoop_error (i : Nat) :
    ∀ (n : Nat) (s s1 : GameState) (e : GameRuleError),
      drawLoop i n s = (s1, some e) → e = .deckEmpty ∧ s1.status = .ended := by
  intro n
  induction n with
  | zero => intro s s1 e h; simp [drawLoop] at h
  | succ n ih =>
    intro s s1 e h
    unfold drawLoop at h
    cases hd : s.deck with
    | nil =>
      rw [hd] at h
      simp only [Prod.mk.injEq, Option.some.injEq] at h
      exact ⟨h.2.symm, by rw [← h.1]⟩
    | cons c rest =>
      rw [hd] at h
      exact ih _ _ _ h

/-- Drawing never touches the turn block. -/
theorem drawLoop_turn (i : Nat) :
    ∀ (n : Nat) (s : GameState), ((drawLoop i n s).1).turn = s.turn := by
  intro n
  induction n with
  | zero => intro s; rfl
  | succ n ih =>
    intro s
    unfold drawLoop
    cases hd : s.deck with
    | nil => rfl
    | cons c rest => rw [ih]; rfl

/-- `_start_turn` never touches the turn block. -/
theorem start_turn_turn (s : GameState) : ((start_turn s).1).turn = s.turn := by
  unfold start_turn
  cases h : playerIndex s.players s.turn.player_id with
  | none => rfl
  | some i => simp [draw_cards, drawLoop_turn, updatePlayer]

theorem modifyIdx_length {α : Type} (f : α → α) :
    ∀ (l : List α) (i : Nat), (modifyIdx l i f).length = l.length := by
  intro l
  induction l with
  | nil => intro i; rfl
  | cons a t ih =>
    intro i
    cases i with
    | zero => rfl
    | succ i => simp [modifyIdx, ih]

theorem modifyIdx_ge {α : Type} (f : α → α) :
    ∀ (l : List α) (i : Nat), l.length ≤ i → modifyIdx l i f = l := by
  intro l
  induction l with
  | nil => intro i _; rfl
  | cons a t ih =>
    intro i hi
    cases i with
    | zero => simp at hi
    | succ i => simp only [modifyIdx]; rw [ih i (by simpa using hi)]

theorem getD_modifyIdx_ne {α : Type} (f : α → α) (d : α) :
    ∀ (l : List α) (i j : Nat), j ≠ i →
      (modifyIdx l i f).getD j d = l.getD j d := by
  intro l
  induction l with
  | nil => intro i j _; rfl
  | cons a t ih =>
    intro i j hji
    cases i with
    | zero =>
      cases j with
      | zero => exact absurd rfl hji
      | succ j => rfl
    | succ i =>
      cases j with
      | zero => rfl
      | succ j => simpa [modifyIdx] using ih i j (by omega)

theorem getD_modifyIdx_self {α : Type} (f : α → α) (d : α) :
    ∀ (l : List α) (i : Nat), i < l.length →
      (modifyIdx l i f).getD i d = f (l.getD i d) := by
  intro l
  induction l with
  | nil => intro i hi; simp at hi
  | cons a t ih =>
    intro i hi
    cases i with
    | zero => rfl
    | succ i => simpa [modifyIdx] using ih i (by simpa using hi)

/-- Observation-preserving point updates preserve the observation at any
index. -/
theorem getD_modifyIdx_map {α β : Type} (g : α → β) (f : α → α) (d : α)
    (hf : ∀ a, g (f a) = g a) :
    ∀ (l : List α) (i j : Nat),
      g ((modifyIdx l i f).getD j d) = g (l.getD j d) := by
  intro l i j
  by_cases hji : j = i
  · subst hji
    by_cases hj : j < l.length
    · rw [getD_modifyIdx_self f d l j hj, hf]
    · rw [modifyIdx_ge f l j (by omega)]
  · rw [getD_modifyIdx_ne f d l i j hji]

theorem playerIndex_spec (pid : String) :
    ∀ (ps : List PlayerState) (i : Nat), playerIndex ps pid = some i →
      i < ps.length ∧ (ps.getD i defaultPlayer).member_id = pid := by
  intro ps
  induction ps with
  | nil => intro i h; simp [playerIndex, firstIdx] at h
  | cons p t ih =>
    intro i h
    simp only [playerIndex, firstIdx] at h
    by_cases hp : p.member_id = pid
    · rw [if_pos (by simpa using hp)] at h
      cases h
      exact ⟨by simp, hp⟩
    · rw [if_neg (by simpa using hp)] at h
      cases hfi : firstIdx (fun q => q.member_id = pid) t with
      | none => rw [hfi] at h; simp at h
      | some k =>
        rw [hfi] at h
        have hik : k + 1 = i := by simpa using h
        have hk := ih k hfi
        cases hik
        exact ⟨by simpa using hk.1, by simpa using hk.2⟩

/-- `playerIndex` only looks at member ids, so any id-preserving point
update leaves it unchanged. -/
theorem playerIndex_modifyIdx (pid : String) (f : PlayerState → PlayerState)
    (hf : ∀ p, (f p).member_id = p.member_id) :
    ∀ (ps : List PlayerState) (k : Nat),
      playerIndex (modifyIdx ps k f) pid = playerIndex ps pid := by
  intro ps
  induction ps with
  | nil => intro k; rfl
  | cons p t ih =>
    intro k
    cases k with
    | zero => simp [modifyIdx, playerIndex, firstIdx, hf p]
    | succ k =>
      have hik := ih k
      simp only [playerIndex] at hik
      simp [modifyIdx, playerIndex, firstIdx, hik]

/-- With pairwise-distinct member ids, looking up the id of the `j`-th
player finds exactly index `j`. -/
theorem playerIndex_nodup :
    ∀ (ps : List PlayerState), (ps.map (·.member_id)).Nodup →
      ∀ (j : Nat), j < ps.length →
        playerIndex ps ((ps.getD j defaultPlayer).member_id) = some j := by
  intro ps
  induction ps with
  | nil => intro _ j hj; simp at hj
  | cons p t ih =>
    intro hnd j hj
    simp only [List.map_cons, List.nodup_cons] at hnd
    cases j with
    | zero => simp [playerIndex, firstIdx]
    | succ j =>
      have hjt : j < t.length := by simpa using hj
      have hmem : (t.getD j defaultPlayer).member_id ∈ t.map (·.member_id) := by
        have : t.getD j defaultPlayer ∈ t := by
          rw [List.getD_eq_getElem t defaultPlayer hjt]
          exact List.getElem_mem hjt
        exact List.mem_map_of_mem _ this
      have hne : ¬ p.member_id = (t.getD j defaultPlayer).member_id := by
        intro he; exact hnd.1 (he ▸ hmem)
      simp only [List.getD_cons_succ, playerIndex, firstIdx]
      rw [if_neg (by simpa using hne)]
      have := ih hnd.2 j hjt
      simp only [playerIndex] at this
      rw [this]
      rfl

/-- Projection of a player that forgets the hand. -/
def sansHand (p : PlayerState) :
    String × String × List LandInPlay × List Gift ×
      Option BuildingType × Nat :=
  (p.member_id, p.name, p.lands_in_play, p.gifts, p.building,
   p.pending_discard)

/-- Drawing changes only the deck, the status, and the drawing player's
hand: every player's hand-less projection survives, players not drawn for
survive whole, and the player-list length survives. -/
theorem drawLoop_players (i : Nat) :
    ∀ (n : Nat) (s : GameState),
      ((drawLoop i n s).1).players.length = s.players.length
      ∧ (∀ j, sansHand (((drawLoop i n s).1).players.getD j defaultPlayer) =
          sansHand (s.players.getD j defaultPlayer))
      ∧ (∀ j, j ≠ i →
          ((drawLoop i n s).1).players.getD j defaultPlayer =
            s.players.getD j defaultPlayer) := by
  intro n
  induction n with
  | zero => intro s; exact ⟨rfl, fun j => rfl, fun j _ => rfl⟩
  | succ n ih =>
    intro s
    unfold drawLoop
    cases hd : s.deck with
    | nil => exact ⟨rfl, fun j => rfl, fun j _ => rfl⟩
    | cons c rest =>
      refine ⟨?_, ?_, ?_⟩
      · rw [(ih _).1]; simp [updatePlayer, modifyIdx_length]
      · intro j
        rw [(ih _).2.1 j]
        simp only [updatePlayer]
        exact getD_modifyIdx_map sansHand
          (fun p => { p with hand := p.hand ++ [c] }) defaultPlayer
          (fun p => rfl) s.players i j
      · intro j hj
        rw [(ih _).2.2 j hj]
        simp only [updatePlayer]
        exact getD_modifyIdx_ne _ defaultPlayer s.players i j hj

/-- Id-preserving point updates keep the member-id listing. -/
theorem map_id_modifyIdx (f : PlayerState → PlayerState)
    (hf : ∀ p, (f p).member_id = p.member_id) :
    ∀ (ps : List PlayerState) (k : Nat),
      (modifyIdx ps k f).map (·.member_id) = ps.map (·.member_id) := by
  intro ps
  induction ps with
  | nil => intro k; rfl
  | cons p t ih =>
    intro k
    cases k with
    | zero => simp [modifyIdx, hf]
    | succ k => simp [modifyIdx, ih]

/-- Round-robin in a session of at least two players moves off the
current index. -/
theorem next_index_ne (i n : Nat) (hi : i < n) (h2 : 2 ≤ n) :
    (i + 1) % n ≠ i := by
  intro he
  rcases Nat.lt_or_ge (i + 1) n with h | h
  · rw [Nat.mod_eq_of_lt h] at he; omega
  · have hn : i + 1 = n := by omega
    rw [hn, Nat.mod_self] at he; omega

/-- In a session of at least two players with distinct member ids, a turn
advance leaves the player entry of the outgoing index untouched. -/
theorem advance_turn_other (s : GameState) (i : Nat)
    (hnd : (s.players.map (·.member_id)).Nodup)
    (hidx : playerIndex s.players s.turn.player_id = some i)
    (h2 : 2 ≤ s.players.length) :
    ((advance_turn s).1).players.getD i defaultPlayer =
      s.players.getD i defaultPlayer := by
  have hlen : 0 < s.players.length := by omega
  have hnlt : (i + 1) % s.players.length < s.players.length :=
    Nat.mod_lt _ hlen
  have hne : (i + 1) % s.players.length ≠ i :=
    next_index_ne i _ (playerIndex_spec _ _ _ hidx).1 h2
  have hpi : playerIndex s.players
      ((s.players.getD ((i + 1) % s.players.length)
        defaultPlayer).member_id) = some ((i + 1) % s.players.length) :=
    playerIndex_nodup s.players hnd _ hnlt
  unfold advance_turn
  rw [hidx]
  unfold start_turn
  simp only [hpi, draw_cards]
  rw [(drawLoop_players _ _ _).2.2 i hne.symm]
  simp only [updatePlayer]
  rw [getD_modifyIdx_ne _ defaultPlayer _ _ _ hne.symm]

/-! ## Concrete scenario states -/

/-- Three untapped lands: two red, one green. -/
def threeLands : List LandInPlay :=
  [{ color := .red }, { color := .red }, { color := .green }]

/-- Requesting player for the steal scenario: empty hand, three untapped
lands. -/
def pAlice : PlayerState :=
  { member_id := "A", name := "Alice", lands_in_play := threeLands }

/-- Victim owning a class-I red gift with one lock. -/
def pBob : PlayerState :=
  { member_id := "B"
    name := "Bob"
    gifts := [{ gift_id := "g1", color := .red, gift_class := .classI
                locks := 1, owner_id := some "B" }] }

/-- Two-player session on Alice's turn, no main action taken yet. -/
def stealState : GameState :=
  { game_id := "game"
    room_id := "room"
    status := .active
    players := [pAlice, pBob]
    deck := []
    gifts_display := []
    turn := { player_id := "A", number := 1 } }

/-- Claim C1: in `stealState`, Alice's hand (0 cards) cannot pay Bob's
gift's one-lock discard cost, so `steal_gift` raises
`InsufficientHandForDiscard` — but only after `_pay_mana` has already
tapped her three lands, so the failure leaves a partially mutated state
behind, contradicting the claimed atomicity.  The resulting state differs
from the pre-state exactly in Alice's (now tapped) lands. -/
theorem c1_steal_gift_commits_taps_on_discard_failure :
    (steal_gift stealState "A" "g1" false none).2 =
        some .insufficientHandForDiscard
    ∧ ((steal_gift stealState "A" "g1" false none).1.players.getD 0
          defaultPlayer).lands_in_play =
        [{ color := .red, tapped := true }, { color := .red, tapped := true },
         { color := .green, tapped := true }]
    ∧ (pAlice.lands_in_play.filter (·.tapped)).length = 0
    ∧ (steal_gift stealState "A" "g1" false none).1 ≠ stealState := by
  refine ⟨by decide, by decide, by decide, by decide⟩

/-- Claim C2: a payment of total 2, no colour requirement (the wrap cost),
by a player with two untapped red lands *succeeds* but taps only one land,
not the claimed "exactly T": the fill loop's `land in chosen` membership
test uses dataclass value equality, so the second red land is skipped as
"already selected".  The two never-succeeds guards do hold at this input
family; the "taps exactly T" part is what fails. -/
theorem c2_pay_mana_taps_fewer_than_total :
    pay_mana [{ color := .red }, { color := .red }] 2 none 0 =
        .ok [{ color := .red, tapped := true }, { color := .red }]
    ∧ (([{ color := .red, tapped := true },
         ({ color := .red } : LandInPlay)].filter (·.tapped)).length = 1)
    ∧ (1 : Nat) ≠ 2 := by
  refine ⟨by decide, by decide, by decide⟩

/-- The display pool for the claim scenario: one fresh class-I red gift. -/
def displayGift : Gift := { gift_id := "d1", color := .red, gift_class := .classI }

/-- Claim C7's session: 2 players, Alice's turn, no main action taken,
Alice has 2 untapped red lands and 1 untapped green land, the display pool
holds the class-I red `displayGift`. -/
def claimState : GameState :=
  { game_id := "game"
    room_id := "room"
    status := .active
    players := [{ member_id := "A", name := "Alice", lands_in_play := threeLands },
                { member_id := "B", name := "Bob" }]
    deck := []
    gifts_display := [displayGift]
    turn := { player_id := "A", number := 1 } }

/-- Claim C7: in `claimState`, `claim_gift` on the class-I display gift
succeeds; afterwards the gift has locks 1 and owner Alice, it is appended
to Alice's gifts and gone from the display pool, and all three of Alice's
lands are tapped. -/
theorem c7_claim_gift_scenario :
    (claim_gift claimState "A" "d1").2 = none
    ∧ ((claim_gift claimState "A" "d1").1.players.getD 0 defaultPlayer).gifts =
        [{ gift_id := "d1", color := .red, gift_class := .classI
           locks := 1, owner_id := some "A" }]
    ∧ (claim_gift claimState "A" "d1").1.gifts_display = []
    ∧ ((claim_gift claimState "A" "d1").1.players.getD 0
          defaultPlayer).lands_in_play =
        [{ color := .red, tapped := true }, { color := .red, tapped := true },
         { color := .green, tapped := true }] := by
  refine ⟨by decide, by decide, by decide, by decide⟩

/-- Claim C3: drawing from an empty deck raises and flips the status to
ended (first two conjuncts: a draw that finds the deck empty fails with
exactly the deck-empty error and an ended status, and an empty deck always
makes a draw fail that way); and on an ended session every engine action
fails with the terminal game-ended violation and returns the state
unchanged (third conjunct). -/
theorem c3_empty_deck_ends_session (cfg : GameConfig) :
    (∀ (s s1 : GameState) (i n : Nat) (e : GameRuleError),
        draw_cards s i n = (s1, some e) → e = .deckEmpty ∧ s1.status = .ended)
    ∧ (∀ (s : GameState) (i n : Nat), s.deck = [] → 0 < n →
        draw_cards s i n = ({ s with status := .ended }, some .deckEmpty))
    ∧ (∀ (s : GameState) (a : Action), s.status = .ended →
        step cfg s a = (s, some .gameEnded)) := by
  refine ⟨?_, ?_, ?_⟩
  · intro s s1 i n e h
    exact drawLoop_error i n s s1 e h
  · intro s i n hdeck hn
    cases n with
    | zero => omega
    | succ n => simp [draw_cards, drawLoop, hdeck]
  · intro s a h
    cases a <;>
      simp [step, play_land, claim_gift, steal_gift, wrap_gift,
        build_building, recycle, discard_from_hand, end_turn,
        require_turn_action, require_turn, h]

/-- Witness for C3 at concrete inputs: a concrete ended session rejects
`end_turn` unchanged, and a concrete empty-deck draw raises the deck-empty
error with an ended status. -/
theorem c3_empty_deck_ends_session_witness :
    (GameRuleError.deckEmpty = .deckEmpty
      ∧ ({ stealState with status := .ended } : GameState).status = .ended)
    ∧ draw_cards stealState 0 1 =
        ({ stealState with status := .ended }, some .deckEmpty)
    ∧ step defaultConfig { stealState with status := .ended }
        (.end_turn "A") =
        ({ stealState with status := .ended }, some .gameEnded) :=
  ⟨(c3_empty_deck_ends_session defaultConfig).1 stealState
      { stealState with status := .ended } 0 1 .deckEmpty (by decide),
   (c3_empty_deck_ends_session defaultConfig).2.1 stealState 0 1
      (by decide) (by decide),
   (c3_empty_deck_ends_session defaultConfig).2.2
      { stealState with status := .ended } (.end_turn "A") (by decide)⟩

/-- Claim C5: a turn advance whose current player sits at index `cur`
hands the turn to the player at index `(cur + 1) mod n` — the next player
in list order, wrapping at the end — and increments the turn number by
exactly one (hence the number never decreases). -/
theorem c5_advance_turn_round_robin (s : GameState) (cur : Nat)
    (h : playerIndex s.players s.turn.player_id = some cur) :
    ((advance_turn s).1).turn.player_id =
        (s.players.getD ((cur + 1) % s.players.length)
          defaultPlayer).member_id
    ∧ ((advance_turn s).1).turn.number = s.turn.number + 1
    ∧ s.turn.number ≤ ((advance_turn s).1).turn.number := by
  unfold advance_turn
  rw [h]
  refine ⟨?_, ?_, ?_⟩ <;> simp [start_turn_turn, Nat.le_succ]

/-- Claim C6 (amended: sessions with at least two players with distinct
member ids): `end_turn` fails with `DiscardRequired` whenever the acting
player's `pending_discard` is positive, and otherwise trims the acting
player's hand to the first `hand_limit` cards (removing the excess from
the end), so that after the call — successful or not — the prior player's
hand is exactly that prefix and in particular has length at most the
configured hand limit.  (With a single player the turn wraps straight
back and the new turn's draw can push the same hand to limit + 1; see the
counterexample.) -/
theorem c6_end_turn_discard_guard_and_trim (cfg : GameConfig)
    (s : GameState) (pid : String) (i : Nat)
    (hnd : (s.players.map (·.member_id)).Nodup)
    (h2 : 2 ≤ s.players.length)
    (hact : s.status = .active)
    (hturn : s.turn.player_id = pid)
    (hidx : playerIndex s.players pid = some i) :
    (0 < (s.players.getD i defaultPlayer).pending_discard →
        end_turn cfg s pid = (s, some .discardRequired))
    ∧ ((s.players.getD i defaultPlayer).pending_discard = 0 →
        ∀ s1 r, end_turn cfg s pid = (s1, r) →
          (s1.players.getD i defaultPlayer).hand =
            (s.players.getD i defaultPlayer).hand.take cfg.hand_limit
          ∧ (s1.players.getD i defaultPlayer).hand.length ≤ cfg.hand_limit) := by
  have hrt : require_turn s pid = none := by
    simp [require_turn, hact, hturn]
  constructor
  · intro hpd
    simp only [end_turn, hrt, hidx]
    rw [if_pos hpd]
  · intro hpd s1 r h
    simp only [end_turn, hrt, hidx] at h
    rw [if_neg (by omega)] at h
    have hilt : i < s.players.length := (playerIndex_spec _ _ _ hidx).1
    by_cases htrim :
        cfg.hand_limit < (s.players.getD i defaultPlayer).hand.length
    · rw [if_pos htrim] at h
      have hoth := advance_turn_other
        (updatePlayer s i fun p => { p with hand := p.hand.take cfg.hand_limit })
        i
        (by
          simp only [updatePlayer]
          rw [map_id_modifyIdx
            (fun p => { p with hand := p.hand.take cfg.hand_limit })
            (fun p => rfl) s.players i]
          exact hnd)
        (by
          simp only [updatePlayer]
          rw [hturn, playerIndex_modifyIdx pid
            (fun p => { p with hand := p.hand.take cfg.hand_limit })
            (fun p => rfl) s.players i]
          exact hidx)
        (by simp only [updatePlayer, modifyIdx_length]; omega)
      have hs1 : s1 = (advance_turn
          (updatePlayer s i fun p =>
            { p with hand := p.hand.take cfg.hand_limit })).1 := by rw [h]
      rw [hs1, hoth]
      simp only [updatePlayer]
      rw [getD_modifyIdx_self _ defaultPlayer s.players i hilt]
      exact ⟨rfl, by simp [List.length_take]⟩
    · rw [if_neg htrim] at h
      have hoth := advance_turn_other s i hnd (by rw [hturn]; exact hidx) h2
      have hs1 : s1 = (advance_turn s).1 := by rw [h]
      have hle : (s.players.getD i defaultPlayer).hand.length ≤
          cfg.hand_limit := by omega
      rw [hs1, hoth]
      exact ⟨(List.take_of_length_le hle).symm, hle⟩

/-- Advancing the turn over an empty deck: the turn block is moved to the
round-robin successor and its number bumped, the successor's lands are
untapped, and only then does the draw fail, flipping the status. -/
theorem advance_turn_empty_deck (s : GameState) (i : Nat)
    (hnd : (s.players.map (·.member_id)).Nodup)
    (hidx : playerIndex s.players s.turn.player_id = some i)
    (hdeck : s.deck = []) :
    (advance_turn s).2 = some .deckEmpty
    ∧ ((advance_turn s).1).status = .ended
    ∧ ((advance_turn s).1).turn.player_id =
        (s.players.getD ((i + 1) % s.players.length)
          defaultPlayer).member_id
    ∧ ((advance_turn s).1).turn.number = s.turn.number + 1
    ∧ (∀ l, l ∈ (((advance_turn s).1).players.getD
          ((i + 1) % s.players.length) defaultPlayer).lands_in_play →
            l.tapped = false) := by
  have hilt : i < s.players.length := (playerIndex_spec _ _ _ hidx).1
  have hlen : 0 < s.players.length := by omega
  have hnlt : (i + 1) % s.players.length < s.players.length :=
    Nat.mod_lt _ hlen
  have hpi : playerIndex s.players
      ((s.players.getD ((i + 1) % s.players.length)
        defaultPlayer).member_id) = some ((i + 1) % s.players.length) :=
    playerIndex_nodup s.players hnd _ hnlt
  unfold advance_turn
  rw [hidx]
  unfold start_turn
  simp only [hpi, draw_cards, drawLoop, updatePlayer, hdeck, true_and]
  intro l hl
  rw [getD_modifyIdx_self _ defaultPlayer _ _ hnlt] at hl
  simp only [List.mem_map] at hl
  obtain ⟨a, _, ha⟩ := hl
  rw [← ha]

/-- Claim C10: when `end_turn` passes its guards (active session, acting
player's turn, no pending discard) but the deck is empty, the raised
deck-empty error leaves a state in which the turn has already advanced:
the turn owner is the round-robin successor, the turn number is bumped by
one, the successor's lands are all untapped, and the session status is
ended. -/
theorem c10_end_turn_advances_before_failed_draw (cfg : GameConfig)
    (s : GameState) (pid : String) (i : Nat) (s1 : GameState)
    (r : Option GameRuleError)
    (hnd : (s.players.map (·.member_id)).Nodup)
    (hact : s.status = .active)
    (hturn : s.turn.player_id = pid)
    (hidx : playerIndex s.players pid = some i)
    (hpd : (s.players.getD i defaultPlayer).pending_discard = 0)
    (hdeck : s.deck = [])
    (h : end_turn cfg s pid = (s1, r)) :
    r = some .deckEmpty
    ∧ s1.status = .ended
    ∧ s1.turn.player_id =
        (s.players.getD ((i + 1) % s.players.length)
          defaultPlayer).member_id
    ∧ s1.turn.number = s.turn.number + 1
    ∧ (∀ l, l ∈ (s1.players.getD ((i + 1) % s.players.length)
          defaultPlayer).lands_in_play → l.tapped = false) := by
  have hrt : require_turn s pid = none := by
    simp [require_turn, hact, hturn]
  simp only [end_turn, hrt, hidx] at h
  rw [if_neg (by omega)] at h
  by_cases htrim :
      cfg.hand_limit < (s.players.getD i defaultPlayer).hand.length
  · rw [if_pos htrim] at h
    have hadv := advance_turn_empty_deck
      (updatePlayer s i fun p => { p with hand := p.hand.take cfg.hand_limit })
      i
      (by
        simp only [updatePlayer]
        rw [map_id_modifyIdx
          (fun p => { p with hand := p.hand.take cfg.hand_limit })
          (fun p => rfl) s.players i]
        exact hnd)
      (by
        simp only [updatePlayer]
        rw [hturn, playerIndex_modifyIdx pid
          (fun p => { p with hand := p.hand.take cfg.hand_limit })
          (fun p => rfl) s.players i]
        exact hidx)
      (by simp [updatePlayer, hdeck])
    have hlen : (updatePlayer s i fun p =>
        { p with hand := p.hand.take cfg.hand_limit }).players.length =
        s.players.length := by
      simp [updatePlayer, modifyIdx_length]
    have hid : ((updatePlayer s i fun p =>
          { p with hand := p.hand.take cfg.hand_limit }).players.getD
            ((i + 1) % s.players.length) defaultPlayer).member_id =
        (s.players.getD ((i + 1) % s.players.length)
          defaultPlayer).member_id := by
      simp only [updatePlayer]
      exact getD_modifyIdx_map (·.member_id)
        (fun p => { p with hand := p.hand.take cfg.hand_limit })
        defaultPlayer (fun p => rfl) s.players i _
    rw [hlen, hid] at hadv
    have hs1 : s1 = (advance_turn (updatePlayer s i fun p =>
        { p with hand := p.hand.take cfg.hand_limit })).1 := by rw [h]
    have hr : r = (advance_turn (updatePlayer s i fun p =>
        { p with hand := p.hand.take cfg.hand_limit })).2 := by rw [h]
    rw [hs1, hr]
    exact hadv
  · rw [if_neg htrim] at h
    have hadv := advance_turn_empty_deck s i hnd
      (by rw [hturn]; exact hidx) hdeck
    have hs1 : s1 = (advance_turn s).1 := by rw [h]
    have hr : r = (advance_turn s).2 := by rw [h]
    rw [hs1, hr]
    exact hadv

/-- Witness for C10: `claimState` has an empty deck, so Alice's `end_turn`
raises the deck-empty error with the turn already moved to Bob, the
number bumped to 2, Bob's lands untapped and the session ended. -/
theorem c10_end_turn_advances_before_failed_draw_witness :
    (end_turn defaultConfig claimState "A").2 = some .deckEmpty
    ∧ (end_turn defaultConfig claimState "A").1.status = .ended
    ∧ (end_turn defaultConfig claimState "A").1.turn.player_id =
        (claimState.players.getD ((0 + 1) % claimState.players.length)
          defaultPlayer).member_id
    ∧ (end_turn defaultConfig claimState "A").1.turn.number =
        claimState.turn.number + 1
    ∧ (∀ l, l ∈ ((end_turn defaultConfig claimState "A").1.players.getD
          ((0 + 1) % claimState.players.length)
          defaultPlayer).lands_in_play → l.tapped = false) :=
  c10_end_turn_advances_before_failed_draw defaultConfig claimState "A" 0
    (end_turn defaultConfig claimState "A").1
    (end_turn defaultConfig claimState "A").2
    (by decide) (by decide) (by decide) (by decide) (by decide) (by decide)
    rfl

/-- A 2-player session like `claimState` but with Alice owing a discard. -/
def pendState : GameState :=
  { game_id := "game"
    room_id := "room"
    status := .active
    players := [{ member_id := "A", name := "Alice", pending_discard := 1 },
                { member_id := "B", name := "Bob" }]
    deck := []
    gifts_display := []
    turn := { player_id := "A", number := 1 } }

/-- Witness for C6 (amended): in the concrete `pendState` the pending
discard blocks `end_turn`, and in the concrete `claimState` a completed
`end_turn` leaves the prior player's hand within the default limit. -/
theorem c6_end_turn_discard_guard_and_trim_witness :
    end_turn defaultConfig pendState "A" = (pendState, some .discardRequired)
    ∧ ((end_turn defaultConfig claimState "A").1.players.getD 0
         defaultPlayer).hand.length ≤ defaultConfig.hand_limit :=
  ⟨(c6_end_turn_discard_guard_and_trim defaultConfig pendState "A" 0
      (by decide) (by decide) (by decide) (by decide) (by decide)).1
      (by decide),
   ((c6_end_turn_discard_guard_and_trim defaultConfig claimState "A" 0
      (by decide) (by decide) (by decide) (by decide) (by decide)).2
      (by decide)
      (end_turn defaultConfig claimState "A").1
      (end_turn defaultConfig claimState "A").2 rfl).2⟩

/-- A legitimate `random.shuffle` outcome of `_build_deck`'s 60 cards:
12 of each colour in colour order. -/
def stdDeck : List Land :=
  List.replicate 12 { color := Color.white } ++
  List.replicate 12 { color := Color.blue } ++
  List.replicate 12 { color := Color.black } ++
  List.replicate 12 { color := Color.red } ++
  List.replicate 12 { color := Color.green }

/-- A legitimate `_build_gifts` outcome: 24 class-I red gifts. -/
def stdGiftSpecs : List (String × Color × GiftClass) :=
  (List.range 24).map fun n => (toString n, Color.red, GiftClass.classI)

/-- A fresh default-config session whose room held a single member — the
lobby's `start_game` only requires a non-empty room. -/
def soloInit : EngineRes :=
  initGame defaultConfig "room" [("A", "Ann")] stdDeck stdGiftSpecs

def soloAfterRecycle : EngineRes :=
  step defaultConfig soloInit.1 (.recycle "A")

def soloAfterDiscard : EngineRes :=
  step defaultConfig soloAfterRecycle.1 (.discard "A" 0)

def soloAfterEnd1 : EngineRes :=
  step defaultConfig soloAfterDiscard.1 (.end_turn "A")

def soloAfterEnd2 : EngineRes :=
  step defaultConfig soloAfterEnd1.1 (.end_turn "A")

/-- Counterexample to claim C6 as stated: in a 1-player session reachable
from a fresh default-config session (init, recycle, discard, end_turn, all
succeeding), the next `end_turn` also *succeeds* with zero pending
discard, yet immediately afterwards the prior (sole) player's hand holds
8 cards — above the configured hand limit of 7 — because the round-robin
wraps the turn straight back to the same player, whose new turn draws a
card after the trim. -/
theorem c6_single_player_end_turn_overflows_hand_limit :
    soloInit.2 = none
    ∧ soloAfterRecycle.2 = none
    ∧ soloAfterDiscard.2 = none
    ∧ soloAfterEnd1.2 = none
    ∧ (soloAfterEnd1.1.players.getD 0 defaultPlayer).pending_discard = 0
    ∧ soloAfterEnd2.2 = none
    ∧ (soloAfterEnd2.1.players.getD 0 defaultPlayer).hand.length = 8
    ∧ defaultConfig.hand_limit = 7 := by
  refine ⟨by decide, by decide, by decide, by decide, by decide, by decide,
    by decide, by decide⟩

/-! ## Invariant infrastructure for the reachability claims -/

/-- The gift is somewhere in the session: display pool or a player's
collection. -/
def giftIn (s : GameState) (g : Gift) : Prop :=
  g ∈ s.gifts_display ∨ ∃ p, p ∈ s.players ∧ g ∈ p.gifts

/-- Every gift in the session respects the 5-lock cap. -/
def LocksOK (s : GameState) : Prop := ∀ g, giftIn s g → g.locks ≤ 5

/-- Every player's battlefield respects the configured land limit. -/
def LandsOK (cfg : GameConfig) (s : GameState) : Prop :=
  ∀ p, p ∈ s.players → p.lands_in_play.length ≤ cfg.land_limit

/-- Every gift of the later state either carries the lock count of some
gift of the earlier state or is explicitly capped at 5 — the shape in
which every action rewrites gift sets. -/
def giftSub (s s1 : GameState) : Prop :=
  ∀ g, giftIn s1 g →
    (∃ g0, giftIn s g0 ∧ g.locks = g0.locks) ∨ g.locks ≤ 5

/-- Land-limit bookkeeping across one state change: the player list keeps
its length, nobody's battlefield shrinks, and the land limit is
preserved. -/
def landsKeep (cfg : GameConfig) (s s1 : GameState) : Prop :=
  s1.players.length = s.players.length
  ∧ (∀ j, (s.players.getD j defaultPlayer).lands_in_play.length ≤
      (s1.players.getD j defaultPlayer).lands_in_play.length)
  ∧ (LandsOK cfg s → LandsOK cfg s1)

theorem giftSub_refl (s : GameState) : giftSub s s := fun g hg =>
  .inl ⟨g, hg, rfl⟩

theorem giftSub_trans {s t u : GameState} (h1 : giftSub s t)
    (h2 : giftSub t u) : giftSub s u := by
  intro g hg
  rcases h2 g hg with ⟨g0, hg0, hl⟩ | hle
  · rcases h1 g0 hg0 with ⟨g00, hg00, hl0⟩ | hle0
    · exact .inl ⟨g00, hg00, hl.trans hl0⟩
    · exact .inr (hl ▸ hle0)
  · exact .inr hle

theorem locksOK_of_giftSub {s s1 : GameState} (hL : LocksOK s)
    (hsub : giftSub s s1) : LocksOK s1 := by
  intro g hg
  rcases hsub g hg with ⟨g0, hg0, hl⟩ | hle
  · exact hl ▸ hL g0 hg0
  · exact hle

theorem landsKeep_refl (cfg : GameConfig) (s : GameState) :
    landsKeep cfg s s := ⟨rfl, fun _ => le_refl _, fun h => h⟩

theorem landsKeep_trans {cfg : GameConfig} {s t u : GameState}
    (h1 : landsKeep cfg s t) (h2 : landsKeep cfg t u) :
    landsKeep cfg s u :=
  ⟨h2.1.trans h1.1, fun j => (h1.2.1 j).trans (h2.2.1 j),
   fun h => h2.2.2 (h1.2.2 h)⟩

/-- Elements of a point update are old elements or the image of the
updated position. -/
theorem mem_modifyIdx {α : Type} {f : α → α} {d : α} :
    ∀ {l : List α} {i : Nat} {a : α}, a ∈ modifyIdx l i f →
      a ∈ l ∨ (i < l.length ∧ a = f (l.getD i d)) := by
  intro l
  induction l with
  | nil => intro i a ha; simp [modifyIdx] at ha
  | cons x t ih =>
    intro i a ha
    cases i with
    | zero =>
      rcases List.mem_cons.mp ha with h | h
      · exact .inr ⟨by simp, h⟩
      · exact .inl (List.mem_cons_of_mem x h)
    | succ i =>
      rcases List.mem_cons.mp ha with h | h
      · exact .inl (h ▸ List.mem_cons_self x t)
      · rcases ih h with h1 | ⟨h1, h2⟩
        · exact .inl (List.mem_cons_of_mem x h1)
        · exact .inr ⟨by simpa using h1, by simpa using h2⟩

theorem getD_mem {α : Type} (l : List α) (i : Nat) (d : α)
    (h : i < l.length) : l.getD i d ∈ l := by
  rw [List.getD_eq_getElem l d h]
  exact List.getElem_mem h

/-- Under the lock invariant, any addressed player's gifts are capped. -/
theorem locksOK_getD {s : GameState} (hL : LocksOK s) (i : Nat) :
    ∀ g ∈ (s.players.getD i defaultPlayer).gifts, g.locks ≤ 5 := by
  intro g hg
  by_cases hi : i < s.players.length
  · exact hL g (.inr ⟨_, getD_mem _ _ _ hi, hg⟩)
  · rw [List.getD_eq_default _ _ (by omega)] at hg
    simp [defaultPlayer] at hg

/-- The two invariant-relevant effects of a point update on the player
list, from hypotheses about the updated entry alone. -/
theorem giftSub_updatePlayer (s : GameState) (i : Nat)
    (f : PlayerState → PlayerState)
    (hg : ∀ g ∈ (f (s.players.getD i defaultPlayer)).gifts,
      (∃ g0, giftIn s g0 ∧ g.locks = g0.locks) ∨ g.locks ≤ 5) :
    giftSub s (updatePlayer s i f) := by
  intro g hgin
  rcases hgin with hd | ⟨p, hp, hgp⟩
  · exact .inl ⟨g, .inl hd, rfl⟩
  · simp only [updatePlayer] at hp
    rcases mem_modifyIdx (d := defaultPlayer) hp with h | ⟨_, h⟩
    · exact .inl ⟨g, .inr ⟨p, h, hgp⟩, rfl⟩
    · exact hg g (h ▸ hgp)

theorem landsKeep_updatePlayer (cfg : GameConfig) (s : GameState) (i : Nat)
    (f : PlayerState → PlayerState)
    (hcap : (s.players.getD i defaultPlayer).lands_in_play.length ≤
        cfg.land_limit →
      (f (s.players.getD i defaultPlayer)).lands_in_play.length ≤
        cfg.land_limit)
    (hmono : (s.players.getD i defaultPlayer).lands_in_play.length ≤
      (f (s.players.getD i defaultPlayer)).lands_in_play.length) :
    landsKeep cfg s (updatePlayer s i f) := by
  refine ⟨by simp [updatePlayer, modifyIdx_length], ?_, ?_⟩
  · intro j
    by_cases hji : j = i
    · subst hji
      by_cases hj : j < s.players.length
      · simp only [updatePlayer]
        rw [getD_modifyIdx_self _ defaultPlayer _ _ hj]
        exact hmono
      · simp only [updatePlayer]
        rw [modifyIdx_ge _ _ _ (by omega)]
    · simp only [updatePlayer]
      rw [getD_modifyIdx_ne _ defaultPlayer _ _ _ hji]
  · intro hOK p hp
    simp only [updatePlayer] at hp
    rcases mem_modifyIdx (d := defaultPlayer) hp with h | ⟨hlt, h⟩
    · exact hOK p h
    · rw [h]
      exact hcap (hOK _ (getD_mem _ _ _ hlt))

/-- Gifts reached through an addressed player are gifts of the state. -/
theorem giftIn_getD {s : GameState} {i : Nat} {g : Gift}
    (hg : g ∈ (s.players.getD i defaultPlayer).gifts) : giftIn s g := by
  by_cases hi : i < s.players.length
  · exact .inr ⟨_, getD_mem _ _ _ hi, hg⟩
  · rw [List.getD_eq_default _ _ (by omega)] at hg
    exact absurd hg (by simp [defaultPlayer])

/-- Changes that do not touch players or the display pool keep the gift
relation. -/
theorem giftSub_of_eq {s s1 : GameState} (hp : s1.players = s.players)
    (hd : s1.gifts_display = s.gifts_display) : giftSub s s1 := by
  intro g hg
  refine .inl ⟨g, ?_, rfl⟩
  rcases hg with h | ⟨p, hps, hpg⟩
  · exact .inl (hd ▸ h)
  · exact .inr ⟨p, hp ▸ hps, hpg⟩

theorem landsKeep_of_eq (cfg : GameConfig) {s s1 : GameState}
    (hp : s1.players = s.players) : landsKeep cfg s s1 := by
  refine ⟨by rw [hp], fun j => by rw [hp], fun h p hps => ?_⟩
  exact h p (hp ▸ hps)

/-- A point update that keeps the gift list and the battlefield length
keeps both invariant relations. -/
theorem keeps_updatePlayer_plain (cfg : GameConfig) (s : GameState)
    (i : Nat) (f : PlayerState → PlayerState)
    (hg : ∀ p, (f p).gifts = p.gifts)
    (hl : ∀ p, (f p).lands_in_play.length = p.lands_in_play.length) :
    giftSub s (updatePlayer s i f) ∧ landsKeep cfg s (updatePlayer s i f) := by
  constructor
  · apply giftSub_updatePlayer
    intro g hgf
    rw [hg] at hgf
    exact .inl ⟨g, giftIn_getD hgf, rfl⟩
  · exact landsKeep_updatePlayer cfg s i f (by rw [hl]; exact id)
      (by rw [hl])

/-- One drawing step keeps both invariant relations. -/
theorem drawLoop_keeps (cfg : GameConfig) (i : Nat) :
    ∀ (n : Nat) (s : GameState),
      giftSub s ((drawLoop i n s).1) ∧ landsKeep cfg s ((drawLoop i n s).1) := by
  intro n
  induction n with
  | zero => exact fun s => ⟨giftSub_refl s, landsKeep_refl cfg s⟩
  | succ n ih =>
    intro s
    unfold drawLoop
    cases hd : s.deck with
    | nil => exact ⟨giftSub_of_eq rfl rfl, landsKeep_of_eq cfg rfl⟩
    | cons c rest =>
      have hstep := keeps_updatePlayer_plain cfg { s with deck := rest } i
        (fun p => { p with hand := p.hand ++ [c] }) (fun p => rfl)
        (fun p => rfl)
      have hrec := ih (updatePlayer { s with deck := rest } i
        fun p => { p with hand := p.hand ++ [c] })
      exact ⟨giftSub_trans (giftSub_trans (giftSub_of_eq rfl rfl) hstep.1)
          hrec.1,
        landsKeep_trans (landsKeep_trans (landsKeep_of_eq cfg rfl) hstep.2)
          hrec.2⟩

theorem start_turn_keeps (cfg : GameConfig) (s : GameState) :
    giftSub s ((start_turn s).1) ∧ landsKeep cfg s ((start_turn s).1) := by
  unfold start_turn
  cases h : playerIndex s.players s.turn.player_id with
  | none => exact ⟨giftSub_refl s, landsKeep_refl cfg s⟩
  | some i =>
    have hstep := keeps_updatePlayer_plain cfg s i
      (fun p => { p with lands_in_play :=
        p.lands_in_play.map fun l => { l with tapped := false } })
      (fun p => rfl) (fun p => by simp)
    have hrec := drawLoop_keeps cfg i 1 (updatePlayer s i fun p =>
      { p with lands_in_play :=
        p.lands_in_play.map fun l => { l with tapped := false } })
    exact ⟨giftSub_trans hstep.1 (by simpa [draw_cards] using hrec.1),
      landsKeep_trans hstep.2 (by simpa [draw_cards] using hrec.2)⟩

theorem advance_turn_keeps (cfg : GameConfig) (s : GameState) :
    giftSub s ((advance_turn s).1) ∧ landsKeep cfg s ((advance_turn s).1) := by
  unfold advance_turn
  cases h : playerIndex s.players s.turn.player_id with
  | none => exact ⟨giftSub_refl s, landsKeep_refl cfg s⟩
  | some i =>
    have hrec := start_turn_keeps cfg
      { s with turn :=
          { player_id := (s.players.getD ((i + 1) % s.players.length)
              defaultPlayer).member_id
            number := s.turn.number + 1 } }
    exact ⟨giftSub_trans (giftSub_of_eq rfl rfl) hrec.1,
      landsKeep_trans (landsKeep_of_eq cfg rfl) hrec.2⟩

theorem draw_cards_keeps (cfg : GameConfig) (s : GameState) (i count : Nat) :
    giftSub s ((draw_cards s i count).1)
    ∧ landsKeep cfg s ((draw_cards s i count).1) := by
  simpa [draw_cards] using drawLoop_keeps cfg i count s

theorem draw_cards_keeps_eq (cfg : GameConfig) (s s1 : GameState)
    (i count : Nat) (r : Option GameRuleError)
    (h : draw_cards s i count = (s1, r)) :
    giftSub s s1 ∧ landsKeep cfg s s1 := by
  have hk := draw_cards_keeps cfg s i count
  rw [h] at hk
  exact hk

theorem enumLands_length (lands : List LandInPlay) :
    (enumLands lands).length = lands.length := by
  simp [enumLands]

theorem tapAt_length (lands : List LandInPlay) (idxs : List Nat) :
    (tapAt lands idxs).length = lands.length := by
  simp [tapAt, enumLands_length]

/-- A successful payment returns a battlefield of unchanged size. -/
theorem pay_mana_ok_length {L : List LandInPlay} {t : Nat}
    {c : Option Color} {r : Nat} {L1 : List LandInPlay}
    (h : pay_mana L t c r = .ok L1) : L1.length = L.length := by
  unfold pay_mana at h
  dsimp only at h
  repeat' split at h
  all_goals first
    | (simp only [Except.ok.injEq] at h; rw [← h]; exact tapAt_length _ _)
    | exact absurd h (by simp)

/-- Dropping display gifts keeps the gift relation. -/
theorem giftSub_display_filter (s : GameState) (q : Gift → Bool) :
    giftSub s { s with gifts_display := s.gifts_display.filter q } := by
  intro g hg
  refine .inl ⟨g, ?_, rfl⟩
  rcases hg with h | hr
  · exact .inl (List.mem_of_mem_filter h)
  · exact .inr hr

/-- Overwriting one battlefield with an equally long one keeps both
relations. -/
theorem keeps_set_lands (cfg : GameConfig) (s : GameState) (i : Nat)
    (lands : List LandInPlay)
    (hlen : lands.length =
      (s.players.getD i defaultPlayer).lands_in_play.length) :
    giftSub s (updatePlayer s i fun p => { p with lands_in_play := lands })
    ∧ landsKeep cfg s
        (updatePlayer s i fun p => { p with lands_in_play := lands }) := by
  constructor
  · apply giftSub_updatePlayer
    intro g hgf
    exact .inl ⟨g, giftIn_getD hgf, rfl⟩
  · exact landsKeep_updatePlayer cfg s i _ (by rw [hlen]; exact id)
      (by rw [hlen])

/-- Filtering one player's gifts keeps both relations. -/
theorem keeps_filter_gifts (cfg : GameConfig) (s : GameState) (j : Nat)
    (q : Gift → Bool) :
    giftSub s (updatePlayer s j fun p => { p with gifts := p.gifts.filter q })
    ∧ landsKeep cfg s
        (updatePlayer s j fun p => { p with gifts := p.gifts.filter q }) := by
  constructor
  · apply giftSub_updatePlayer
    intro g hgf
    exact .inl ⟨g, giftIn_getD (List.mem_of_mem_filter hgf), rfl⟩
  · exact landsKeep_updatePlayer cfg s j _ id (le_refl _)

/-- Appending a gift whose lock count is justified against the original
state keeps the gift relation from that original state. -/
theorem giftSub_append_gift (sOld sCur : GameState) (i : Nat) (g2 : Gift)
    (hsub : giftSub sOld sCur)
    (hg2 : (∃ g0, giftIn sOld g0 ∧ g2.locks = g0.locks) ∨ g2.locks ≤ 5) :
    giftSub sOld
      (updatePlayer sCur i fun p => { p with gifts := p.gifts ++ [g2] }) := by
  intro g hg
  rcases hg with hd | ⟨p, hp, hgp⟩
  · exact hsub g (.inl hd)
  · simp only [updatePlayer] at hp
    rcases mem_modifyIdx (d := defaultPlayer) hp with h | ⟨_, h⟩
    · exact hsub g (.inr ⟨p, h, hgp⟩)
    · subst h
      rcases List.mem_append.mp hgp with h | h
      · exact hsub g (.inr ⟨_, getD_mem _ _ _ (by
          by_contra hge
          rw [List.getD_eq_default _ _ (by omega)] at h
          simp [defaultPlayer] at h), h⟩)
      · rcases List.mem_singleton.mp h with rfl
        exact hg2

/-- A gift found by `_find_owned_gift` is a gift of the session. -/
theorem find_owned_gift_spec :
    ∀ (ps : List PlayerState) (gid : String) (j : Nat) (g : Gift),
      find_owned_gift ps gid = some (j, g) →
      ∃ p, p ∈ ps ∧ g ∈ p.gifts := by
  intro ps
  induction ps with
  | nil => intro gid j g h; simp [find_owned_gift] at h
  | cons p t ih =>
    intro gid j g h
    simp only [find_owned_gift] at h
    cases hf : p.gifts.find? (fun x => x.gift_id = gid) with
    | some g0 =>
      rw [hf] at h
      simp only [Option.some.injEq, Prod.mk.injEq] at h
      exact ⟨p, List.mem_cons_self p t,
        h.2 ▸ List.mem_of_find?_eq_some hf⟩
    | none =>
      rw [hf] at h
      cases hr : find_owned_gift t gid with
      | none => rw [hr] at h; simp at h
      | some q =>
        rw [hr] at h
        simp only [Option.map] at h
        have h2 := Option.some.inj h
        obtain ⟨p1, hp1, hg1⟩ := ih gid q.1 q.2 (by rw [hr])
        have hgq : q.2 = g := congrArg Prod.snd h2
        exact ⟨p1, List.mem_cons_of_mem p hp1, hgq ▸ hg1⟩

/-- `play_land` keeps both invariant relations: the only growth of a
battlefield happens under the land-limit guard. -/
theorem play_land_keeps (cfg : GameConfig) (s : GameState) (pid : String)
    (index : Int) :
    giftSub s (play_land cfg s pid index).1
    ∧ landsKeep cfg s (play_land cfg s pid index).1 := by
  unfold play_land
  dsimp only
  split
  · exact ⟨giftSub_refl s, landsKeep_refl cfg s⟩
  split
  · exact ⟨giftSub_refl s, landsKeep_refl cfg s⟩
  split
  · exact ⟨giftSub_refl s, landsKeep_refl cfg s⟩
  split
  · exact ⟨giftSub_refl s, landsKeep_refl cfg s⟩
  split
  · exact ⟨giftSub_refl s, landsKeep_refl cfg s⟩
  constructor
  · exact giftSub_trans
      (giftSub_updatePlayer s _ _ fun g hgf => .inl ⟨g, giftIn_getD hgf, rfl⟩)
      (giftSub_of_eq rfl rfl)
  · refine landsKeep_trans
      (landsKeep_updatePlayer cfg s _ _ ?_ ?_) (landsKeep_of_eq cfg rfl)
    · intro _
      simp only [List.length_append, List.length_cons, List.length_nil]
      omega
    · simp

def defaultGift : Gift := { gift_id := "", color := .white, gift_class := .classI }

theorem claim_gift_keeps (cfg : GameConfig) (s : GameState)
    (pid gid : String) :
    giftSub s (claim_gift s pid gid).1
    ∧ landsKeep cfg s (claim_gift s pid gid).1 := by
  unfold claim_gift
  dsimp only
  split
  · exact ⟨giftSub_refl s, landsKeep_refl cfg s⟩
  split
  · exact ⟨giftSub_refl s, landsKeep_refl cfg s⟩
  split
  · exact ⟨giftSub_refl s, landsKeep_refl cfg s⟩
  split
  · exact ⟨giftSub_refl s, landsKeep_refl cfg s⟩
  rename_i lands hpay
  have hlen := pay_mana_ok_length hpay
  constructor
  · refine giftSub_trans (giftSub_updatePlayer s _ _ ?_)
      (giftSub_trans (giftSub_display_filter _ _) (giftSub_of_eq rfl rfl))
    intro g hgf
    rcases List.mem_append.mp hgf with h | h
    · exact .inl ⟨g, giftIn_getD h, rfl⟩
    · rcases List.mem_singleton.mp h with rfl
      exact .inr (Nat.min_le_left _ _)
  · refine landsKeep_trans (landsKeep_updatePlayer cfg s _ _ ?_ ?_)
      (landsKeep_trans (landsKeep_of_eq cfg rfl) (landsKeep_of_eq cfg rfl))
    · rw [hlen]; exact id
    · rw [hlen]

theorem wrap_gift_keeps (cfg : GameConfig) (s : GameState)
    (pid gid : String) :
    giftSub s (wrap_gift s pid gid).1
    ∧ landsKeep cfg s (wrap_gift s pid gid).1 := by
  unfold wrap_gift
  dsimp only
  split
  · exact ⟨giftSub_refl s, landsKeep_refl cfg s⟩
  split
  · exact ⟨giftSub_refl s, landsKeep_refl cfg s⟩
  split
  · exact ⟨giftSub_refl s, landsKeep_refl cfg s⟩
  split
  · exact ⟨giftSub_refl s, landsKeep_refl cfg s⟩
  rename_i lands hpay
  have hlen := pay_mana_ok_length hpay
  constructor
  · refine giftSub_trans (giftSub_updatePlayer s _ _ ?_)
      (giftSub_of_eq rfl rfl)
    intro g hgf
    rcases mem_modifyIdx (d := defaultGift) hgf with h | ⟨_, h⟩
    · exact .inl ⟨g, giftIn_getD h, rfl⟩
    · rw [h]
      exact .inr (Nat.min_le_left _ _)
  · refine landsKeep_trans (landsKeep_updatePlayer cfg s _ _ ?_ ?_)
      (landsKeep_of_eq cfg rfl)
    · rw [hlen]; exact id
    · rw [hlen]

theorem build_building_keeps (cfg : GameConfig) (s : GameState)
    (pid : String) (b : BuildingType) :
    giftSub s (build_building s pid b).1
    ∧ landsKeep cfg s (build_building s pid b).1 := by
  unfold build_building
  dsimp only
  split
  · exact ⟨giftSub_refl s, landsKeep_refl cfg s⟩
  split
  · exact ⟨giftSub_refl s, landsKeep_refl cfg s⟩
  split
  · exact ⟨giftSub_refl s, landsKeep_refl cfg s⟩
  split
  · exact ⟨giftSub_refl s, landsKeep_refl cfg s⟩
  rename_i lands hpay
  have hlen := pay_mana_ok_length hpay
  constructor
  · refine giftSub_trans (giftSub_updatePlayer s _ _ ?_)
      (giftSub_of_eq rfl rfl)
    intro g hgf
    exact .inl ⟨g, giftIn_getD hgf, rfl⟩
  · refine landsKeep_trans (landsKeep_updatePlayer cfg s _ _ ?_ ?_)
      (landsKeep_of_eq cfg rfl)
    · rw [hlen]; exact id
    · rw [hlen]

theorem recycle_keeps (cfg : GameConfig) (s : GameState) (pid : String) :
    giftSub s (recycle s pid).1 ∧ landsKeep cfg s (recycle s pid).1 := by
  unfold recycle
  dsimp only
  split
  · exact ⟨giftSub_refl s, landsKeep_refl cfg s⟩
  split
  · exact ⟨giftSub_refl s, landsKeep_refl cfg s⟩
  split
  · exact ⟨giftSub_refl s, landsKeep_refl cfg s⟩
  split
  · rename_i s1 e heq
    exact draw_cards_keeps_eq cfg s s1 _ _ _ heq
  · rename_i s1 heq
    have hk := draw_cards_keeps_eq cfg s s1 _ _ _ heq
    exact ⟨giftSub_trans hk.1 (giftSub_trans
        (keeps_updatePlayer_plain cfg s1 _
          (fun p => { p with pending_discard := 1 })
          (fun p => rfl) (fun p => rfl)).1
        (giftSub_of_eq rfl rfl)),
      landsKeep_trans hk.2 (landsKeep_trans
        (keeps_updatePlayer_plain cfg s1 _
          (fun p => { p with pending_discard := 1 })
          (fun p => rfl) (fun p => rfl)).2
        (landsKeep_of_eq cfg rfl))⟩

theorem discard_from_hand_keeps (cfg : GameConfig) (s : GameState)
    (pid : String) (index : Int) :
    giftSub s (discard_from_hand s pid index).1
    ∧ landsKeep cfg s (discard_from_hand s pid index).1 := by
  unfold discard_from_hand
  dsimp only
  split
  · exact ⟨giftSub_refl s, landsKeep_refl cfg s⟩
  split
  · exact ⟨giftSub_refl s, landsKeep_refl cfg s⟩
  split
  · exact ⟨giftSub_refl s, landsKeep_refl cfg s⟩
  split
  · exact ⟨giftSub_refl s, landsKeep_refl cfg s⟩
  exact keeps_updatePlayer_plain cfg s _ _ (fun p => rfl) (fun p => rfl)

theorem end_turn_keeps (cfg : GameConfig) (s : GameState) (pid : String) :
    giftSub s (end_turn cfg s pid).1
    ∧ landsKeep cfg s (end_turn cfg s pid).1 := by
  unfold end_turn
  dsimp only
  split
  · exact ⟨giftSub_refl s, landsKeep_refl cfg s⟩
  split
  · exact ⟨giftSub_refl s, landsKeep_refl cfg s⟩
  split
  · exact ⟨giftSub_refl s, landsKeep_refl cfg s⟩
  split
  · exact ⟨giftSub_trans
        (keeps_updatePlayer_plain cfg s _
          (fun p => { p with hand := p.hand.take cfg.hand_limit })
          (fun p => rfl) (fun p => rfl)).1
        (advance_turn_keeps cfg _).1,
      landsKeep_trans
        (keeps_updatePlayer_plain cfg s _
          (fun p => { p with hand := p.hand.take cfg.hand_limit })
          (fun p => rfl) (fun p => rfl)).2
        (advance_turn_keeps cfg _).2⟩
  · exact advance_turn_keeps cfg s

/-- Setting a player's hand (to anything) keeps both relations. -/
theorem keeps_set_hand (cfg : GameConfig) (s : GameState) (i : Nat)
    (h : PlayerState → List Land) :
    giftSub s (updatePlayer s i fun p => { p with hand := h p })
    ∧ landsKeep cfg s (updatePlayer s i fun p => { p with hand := h p }) :=
  keeps_updatePlayer_plain cfg s i _ (fun _ => rfl) (fun _ => rfl)

/-- The closing mutation of a successful steal: filter the victim's
gifts, append the transferred gift to the thief.  The appended gift's
locks are either those of a gift of the original state or capped. -/
theorem steal_final_keeps (cfg : GameConfig) (s s2 : GameState)
    (i j : Nat) (q : Gift → Bool) (gift g2 : Gift)
    (hsub : giftSub s s2) (hlk : landsKeep cfg s s2)
    (hgin : giftIn s gift)
    (hg2 : g2.locks = gift.locks ∨ g2.locks ≤ 5) :
    giftSub s (updatePlayer (updatePlayer s2 j fun p =>
        { p with gifts := p.gifts.filter q }) i fun p =>
        { p with gifts := p.gifts ++ [g2] })
    ∧ landsKeep cfg s (updatePlayer (updatePlayer s2 j fun p =>
        { p with gifts := p.gifts.filter q }) i fun p =>
        { p with gifts := p.gifts ++ [g2] }) := by
  have h3 := keeps_filter_gifts cfg s2 j q
  constructor
  · apply giftSub_append_gift
    · exact giftSub_trans hsub h3.1
    · rcases hg2 with h | h
      · exact .inl ⟨gift, hgin, h⟩
      · exact .inr h
  · exact landsKeep_trans hlk (landsKeep_trans h3.2
      (landsKeep_updatePlayer cfg _ i _ id (le_refl _)))

/-- `steal_final_keeps` composed with the closing turn-flag update. -/
theorem steal_final_keeps_turn (cfg : GameConfig) (s s2 : GameState)
    (i j : Nat) (q : Gift → Bool) (gift g2 : Gift) (t : TurnState)
    (hsub : giftSub s s2) (hlk : landsKeep cfg s s2)
    (hgin : giftIn s gift)
    (hg2 : g2.locks = gift.locks ∨ g2.locks ≤ 5) :
    giftSub s { (updatePlayer (updatePlayer s2 j fun p =>
        { p with gifts := p.gifts.filter q }) i fun p =>
        { p with gifts := p.gifts ++ [g2] }) with turn := t }
    ∧ landsKeep cfg s { (updatePlayer (updatePlayer s2 j fun p =>
        { p with gifts := p.gifts.filter q }) i fun p =>
        { p with gifts := p.gifts ++ [g2] }) with turn := t } := by
  have h := steal_final_keeps cfg s s2 i j q gift g2 hsub hlk hgin hg2
  exact ⟨giftSub_trans h.1 (giftSub_of_eq rfl rfl),
    landsKeep_trans h.2 (landsKeep_of_eq cfg rfl)⟩

theorem steal_gift_keeps (cfg : GameConfig) (s : GameState)
    (pid gid : String) (al : Bool) (di : Option (List Int)) :
    giftSub s (steal_gift s pid gid al di).1
    ∧ landsKeep cfg s (steal_gift s pid gid al di).1 := by
  unfold steal_gift
  dsimp only
  split
  · exact ⟨giftSub_refl s, landsKeep_refl cfg s⟩
  split
  · exact ⟨giftSub_refl s, landsKeep_refl cfg s⟩
  split
  · exact ⟨giftSub_refl s, landsKeep_refl cfg s⟩
  rename_i jg hfind
  split
  · exact ⟨giftSub_refl s, landsKeep_refl cfg s⟩
  split
  · exact ⟨giftSub_refl s, landsKeep_refl cfg s⟩
  split
  · exact ⟨giftSub_refl s, landsKeep_refl cfg s⟩
  rename_i lands hpay
  have hlen := pay_mana_ok_length hpay
  have hset := keeps_set_lands cfg s _ lands hlen
  split
  all_goals (
    split
    · exact hset
    cases di with
    | none =>
      exact steal_final_keeps_turn cfg s _ _ _ _ jg _ _
        (giftSub_trans hset.1 (keeps_set_hand cfg _ _ _).1)
        (landsKeep_trans hset.2 (keeps_set_hand cfg _ _ _).2)
        (by
          obtain ⟨p, hp, hgg⟩ := find_owned_gift_spec s.players gid _ jg hfind
          exact Or.inr ⟨p, hp, hgg⟩)
        (by
          split
          · exact Or.inr (Nat.min_le_left _ _)
          · exact Or.inl rfl)
    | some idxs =>
      dsimp only
      split
      · rename_i s2 e heq
        split at heq
        · injection heq with h2 h3
          subst h2
          exact hset
        · split at heq
          · injection heq with h2 h3
            subst h2
            exact hset
          · injection heq with h2 h3
            subst h2
            exact ⟨giftSub_trans hset.1 (keeps_set_hand cfg _ _ _).1,
              landsKeep_trans hset.2 (keeps_set_hand cfg _ _ _).2⟩
      · rename_i s2 heq
        split at heq
        · injection heq with h2 h3
          simp at h3
        · split at heq
          · injection heq with h2 h3
            simp at h3
          · injection heq with h2 h3
            subst h2
            exact steal_final_keeps_turn cfg s _ _ _ _ jg _ _
              (giftSub_trans hset.1 (keeps_set_hand cfg _ _ _).1)
              (landsKeep_trans hset.2 (keeps_set_hand cfg _ _ _).2)
              (by
                obtain ⟨p, hp, hgg⟩ :=
                  find_owned_gift_spec s.players gid _ jg hfind
                exact Or.inr ⟨p, hp, hgg⟩)
              (by
                split
                · exact Or.inr (Nat.min_le_left _ _)
                · exact Or.inl rfl))

/-- Every engine action keeps both invariant relations. -/
theorem step_keeps (cfg : GameConfig) (s : GameState) (a : Action) :
    giftSub s (step cfg s a).1 ∧ landsKeep cfg s (step cfg s a).1 := by
  cases a with
  | play_land pid index => exact play_land_keeps cfg s pid index
  | claim_gift pid gid => exact claim_gift_keeps cfg s pid gid
  | steal_gift pid gid al di => exact steal_gift_keeps cfg s pid gid al di
  | wrap_gift pid gid => exact wrap_gift_keeps cfg s pid gid
  | build_building pid b => exact build_building_keeps cfg s pid b
  | recycle pid => exact recycle_keeps cfg s pid
  | discard pid index => exact discard_from_hand_keeps cfg s pid index
  | end_turn pid => exact end_turn_keeps cfg s pid

theorem drawEach_keeps (cfg : GameConfig) :
    ∀ (l : List Nat) (s : GameState),
      giftSub s ((drawEach cfg l s).1)
      ∧ landsKeep cfg s ((drawEach cfg l s).1) := by
  intro l
  induction l with
  | nil => exact fun s => ⟨giftSub_refl s, landsKeep_refl cfg s⟩
  | cons i rest ih =>
    intro s
    unfold drawEach
    cases hd : draw_cards s i cfg.initial_hand with
    | mk s1 r =>
      have hk := draw_cards_keeps_eq cfg s s1 _ _ _ hd
      cases r with
      | some e => exact hk
      | none =>
        exact ⟨giftSub_trans hk.1 (ih s1).1,
          landsKeep_trans hk.2 (ih s1).2⟩

theorem drawEach_keeps_eq (cfg : GameConfig) (l : List Nat)
    (s s1 : GameState) (r : Option GameRuleError)
    (h : drawEach cfg l s = (s1, r)) :
    giftSub s s1 ∧ landsKeep cfg s s1 := by
  have hk := drawEach_keeps cfg l s
  rw [h] at hk
  exact hk

theorem initGame_invariants (cfg : GameConfig) (room : String)
    (members : List (String × String)) (deck : List Land)
    (gifts : List (String × Color × GiftClass)) :
    LocksOK (initGame cfg room members deck gifts).1
    ∧ LandsOK cfg (initGame cfg room members deck gifts).1 := by
  have h0 : LocksOK
      { game_id := ""
        room_id := room
        status := .active
        players := members.map fun m => { member_id := m.1, name := m.2 }
        deck := deck
        gifts_display := (gifts.map mkGift).take cfg.gifts_in_display
        turn := { player_id := "", number := 0 } } := by
    intro g hg
    rcases hg with hd | ⟨p, hp, hpg⟩
    · rcases List.mem_map.mp (List.take_subset _ _ hd) with ⟨spec, _, rfl⟩
      simp [mkGift]
    · rcases List.mem_map.mp hp with ⟨m, _, rfl⟩
      simp at hpg
  have l0 : LandsOK cfg
      { game_id := ""
        room_id := room
        status := .active
        players := members.map fun m => { member_id := m.1, name := m.2 }
        deck := deck
        gifts_display := (gifts.map mkGift).take cfg.gifts_in_display
        turn := { player_id := "", number := 0 } } := by
    intro p hp
    rcases List.mem_map.mp hp with ⟨m, _, rfl⟩
    exact Nat.zero_le _
  unfold initGame
  dsimp only
  split
  · rename_i s1 e heq
    have hde := drawEach_keeps_eq cfg _ _ _ _ heq
    exact ⟨locksOK_of_giftSub h0 hde.1, hde.2.2.2 l0⟩
  · rename_i s1 heq
    have hde := drawEach_keeps_eq cfg _ _ _ _ heq
    have hst := start_turn_keeps cfg
      { s1 with turn :=
          { player_id := (s1.players.getD 0 defaultPlayer).member_id
            number := 1 } }
    have hsub := giftSub_trans hde.1
      (giftSub_trans (giftSub_of_eq rfl rfl) hst.1)
    have hlk := landsKeep_trans hde.2
      (landsKeep_trans (landsKeep_of_eq cfg rfl) hst.2)
    exact ⟨locksOK_of_giftSub h0 hsub, hlk.2.2 l0⟩

/-- Both invariants hold in every reachable state. -/
theorem reachable_invariants (cfg : GameConfig) :
    ∀ s, Reachable cfg s → LocksOK s ∧ LandsOK cfg s := by
  intro s h
  induction h with
  | init room members deck gifts s r hne hinit =>
    have hi := initGame_invariants cfg room members deck gifts
    rw [hinit] at hi
    exact hi
  | step s a s1 r hreach hstep ih =>
    have hk := step_keeps cfg s a
    rw [hstep] at hk
    exact ⟨locksOK_of_giftSub ih.1 hk.1, hk.2.2.2 ih.2⟩

/-- Claim C4: every gift in every state reachable from a fresh session
keeps its lock count in [0,5] (the lower bound is inherent in `Nat`), with
`sealed` holding exactly at 5 locks; and once `steal_gift`'s earlier
checks locate a sealed gift owned by another player, the action fails with
`GiftSealed`, leaving the state unchanged. -/
theorem c4_gift_lock_invariant_and_sealed_guard (cfg : GameConfig) :
    (∀ s, Reachable cfg s → ∀ g, giftIn s g →
        g.locks ≤ 5 ∧ (g.sealed = true ↔ g.locks = 5))
    ∧ (∀ (s : GameState) (pid gid : String) (al : Bool)
        (di : Option (List Int)) (i j : Nat) (g : Gift),
        s.status = .active → s.turn.player_id = pid →
        s.turn.has_taken_action = false →
        playerIndex s.players pid = some i →
        find_owned_gift s.players gid = some (j, g) →
        (s.players.getD j defaultPlayer).member_id ≠ pid →
        g.sealed = true →
        steal_gift s pid gid al di = (s, some .giftSealed)) := by
  constructor
  · intro s hreach g hg
    have hle := (reachable_invariants cfg s hreach).1 g hg
    refine ⟨hle, ?_⟩
    simp only [Gift.sealed, decide_eq_true_eq]
    omega
  · intro s pid gid al di i j g hact hturn htaken hidx hfind howner hsealed
    have hguard : require_turn_action s pid = none := by
      simp [require_turn_action, require_turn, hact, hturn, htaken]
    unfold steal_gift
    simp only [hguard, hidx, hfind]
    rw [if_neg howner, if_pos hsealed]

/-- A session holding a sealed gift (5 locks) owned by Bob, with Alice to
act. -/
def sealedState : GameState :=
  { game_id := "game"
    room_id := "room"
    status := .active
    players := [{ member_id := "A", name := "Alice" },
                { member_id := "B", name := "Bob",
                  gifts := [{ gift_id := "g9", color := .red
                              gift_class := .classI, locks := 5
                              owner_id := some "B" }] }]
    deck := []
    gifts_display := []
    turn := { player_id := "A", number := 1 } }

/-- Witness for C4: the first display gift of the concrete fresh session
`soloInit` satisfies the lock/seal conclusions, and in the concrete
`sealedState` Alice's steal of Bob's 5-lock gift fails with `GiftSealed`
leaving the state unchanged. -/
theorem c4_gift_lock_invariant_and_sealed_guard_witness :
    (({ gift_id := "0", color := .red, gift_class := .classI } : Gift).locks
        ≤ 5
      ∧ (({ gift_id := "0", color := .red, gift_class := .classI } :
          Gift).sealed = true ↔
         ({ gift_id := "0", color := .red, gift_class := .classI} :
          Gift).locks = 5))
    ∧ steal_gift sealedState "A" "g9" false none =
        (sealedState, some .giftSealed) :=
  ⟨(c4_gift_lock_invariant_and_sealed_guard defaultConfig).1 soloInit.1
      (Reachable.init "room" [("A", "Ann")] stdDeck stdGiftSpecs
        soloInit.1 soloInit.2 (by decide) rfl)
      { gift_id := "0", color := .red, gift_class := .classI }
      (Or.inl (by decide)),
   (c4_gift_lock_invariant_and_sealed_guard defaultConfig).2 sealedState
      "A" "g9" false none 0 1
      { gift_id := "g9", color := .red, gift_class := .classI
        locks := 5, owner_id := some "B" }
      (by decide) (by decide) (by decide) (by decide) (by decide)
      (by decide) (by decide)⟩

/-- Claim C9: in every reachable state, every player's tapped-land count
is bounded by the total battlefield size (non-negativity is inherent in
`Nat`), the battlefield size never exceeds the configured land limit, and
no engine action ever shrinks any player's battlefield. -/
theorem c9_land_limit_and_monotonicity (cfg : GameConfig) :
    (∀ s, Reachable cfg s → ∀ p, p ∈ s.players →
        (p.lands_in_play.filter (·.tapped)).length ≤ p.lands_in_play.length
        ∧ p.lands_in_play.length ≤ cfg.land_limit)
    ∧ (∀ (s : GameState) (a : Action) (j : Nat),
        (s.players.getD j defaultPlayer).lands_in_play.length ≤
          ((step cfg s a).1.players.getD j
            defaultPlayer).lands_in_play.length) := by
  constructor
  · intro s hreach p hp
    exact ⟨List.length_filter_le _ _,
      (reachable_invariants cfg s hreach).2 p hp⟩
  · intro s a j
    exact (step_keeps cfg s a).2.2.1 j

/-- Witness for C9: the sole player of the concrete fresh session
`soloInit` satisfies the bounds, and the concrete `end_turn` step on
`claimState` does not shrink Alice's battlefield. -/
theorem c9_land_limit_and_monotonicity_witness :
    (((soloInit.1.players.getD 0 defaultPlayer).lands_in_play.filter
        (·.tapped)).length ≤
        (soloInit.1.players.getD 0 defaultPlayer).lands_in_play.length
      ∧ (soloInit.1.players.getD 0 defaultPlayer).lands_in_play.length ≤
        defaultConfig.land_limit)
    ∧ (claimState.players.getD 0 defaultPlayer).lands_in_play.length ≤
        ((step defaultConfig claimState (.end_turn "A")).1.players.getD 0
          defaultPlayer).lands_in_play.length :=
  ⟨(c9_land_limit_and_monotonicity defaultConfig).1 soloInit.1
      (Reachable.init "room" [("A", "Ann")] stdDeck stdGiftSpecs
        soloInit.1 soloInit.2 (by decide) rfl)
      (soloInit.1.players.getD 0 defaultPlayer) (by decide),
   (c9_land_limit_and_monotonicity defaultConfig).2 claimState
      (.end_turn "A") 0⟩

/-- Two player states that agree on everything the public player block
shows (ids, names, lands, gifts, building, pending discard, hand *count*),
with full hand agreement required only when the player is the viewer. -/
def agreeForViewer (viewer_id : String) (p q : PlayerState) : Prop :=
  p.member_id = q.member_id ∧ p.name = q.name
  ∧ p.lands_in_play = q.lands_in_play ∧ p.gifts = q.gifts
  ∧ p.building = q.building ∧ p.pending_discard = q.pending_discard
  ∧ p.hand.length = q.hand.length
  ∧ (p.member_id = viewer_id → p.hand = q.hand)

/-- Two sessions that differ at most in the contents (not counts) of
non-viewer hands. -/
def agreeStates (viewer_id : String) (s t : GameState) : Prop :=
  s.game_id = t.game_id ∧ s.room_id = t.room_id ∧ s.status = t.status
  ∧ s.turn = t.turn ∧ s.deck = t.deck ∧ s.gifts_display = t.gifts_display
  ∧ List.Forall₂ (agreeForViewer viewer_id) s.players t.players

theorem forall2_getD {R : PlayerState → PlayerState → Prop} :
    ∀ {l1 l2 : List PlayerState}, List.Forall₂ R l1 l2 →
      ∀ i, i < l1.length →
        R (l1.getD i defaultPlayer) (l2.getD i defaultPlayer) := by
  intro l1 l2 h
  induction h with
  | nil => intro i hi; simp at hi
  | cons h1 h2 ih =>
    intro i hi
    cases i with
    | zero => simpa using h1
    | succ i => simpa using ih i (by simpa using hi)

/-- Agreeing player lists are searched identically. -/
theorem playerIndex_forall2 (v : String) :
    ∀ {l1 l2 : List PlayerState},
      List.Forall₂ (agreeForViewer v) l1 l2 →
      playerIndex l1 v = playerIndex l2 v := by
  intro l1 l2 h
  induction h with
  | nil => rfl
  | cons h1 h2 ih =>
    simp only [playerIndex, firstIdx] at ih ⊢
    simp [h1.1, ih]

/-- The public player block only reads fields on which agreeing players
coincide (the hand enters only through its length). -/
theorem playerView_agree (v : String) (p q : PlayerState)
    (h : agreeForViewer v p q) : playerView p = playerView q := by
  obtain ⟨h1, h2, h3, h4, h5, h6, h7, _⟩ := h
  simp [playerView, PlayerState.score, h1, h2, h3, h4, h5, h6, h7]

theorem map_playerView_forall2 (v : String) :
    ∀ {l1 l2 : List PlayerState},
      List.Forall₂ (agreeForViewer v) l1 l2 →
      l1.map playerView = l2.map playerView := by
  intro l1 l2 h
  induction h with
  | nil => rfl
  | cons h1 h2 ih => simp [playerView_agree v _ _ h1, ih]

/-- Claim C8: the snapshot built for a viewer is identical on two sessions
that differ only in the colours of cards in other players' hands (same
counts): other players' hands enter the projection only as `hand_count`,
and full hand contents appear only in the viewer block. -/
theorem c8_serialize_state_hand_privacy (viewer_id : String)
    (s t : GameState) (h : agreeStates viewer_id s t) :
    serialize_state s viewer_id = serialize_state t viewer_id := by
  obtain ⟨hgame, hroom, hstat, hturn, hdeck, hdisp, hps⟩ := h
  have hpi : playerIndex s.players viewer_id =
      playerIndex t.players viewer_id := playerIndex_forall2 viewer_id hps
  unfold serialize_state
  cases hidx : playerIndex s.players viewer_id with
  | none => rw [← hpi, hidx]
  | some i =>
    rw [← hpi, hidx]
    have hilt : i < s.players.length := (playerIndex_spec _ _ _ hidx).1
    have hvid : (s.players.getD i defaultPlayer).member_id = viewer_id :=
      (playerIndex_spec _ _ _ hidx).2
    have hag := forall2_getD hps i hilt
    obtain ⟨h1, h2, h3, h4, h5, h6, h7, h8⟩ := hag
    have hhand := h8 hvid
    simp only [Option.some.injEq, Snapshot.mk.injEq, TurnView.mk.injEq,
      ViewerView.mk.injEq]
    refine ⟨hgame, hroom, hstat, ⟨?_, ?_, ?_, ?_⟩,
      map_playerView_forall2 viewer_id hps, by rw [hdisp],
      ⟨h1, h2, by rw [hhand], by rw [h3], h5, h6⟩, by rw [hdeck]⟩
    · rw [hturn]
    · rw [hturn]
    · rw [hturn]
    · rw [hturn]

/-- A 2-player session where the viewer Alice holds a red card and Bob
holds one blue card. -/
def snapStateA : GameState :=
  { game_id := "game"
    room_id := "room"
    status := .active
    players := [{ member_id := "A", name := "Alice",
                  hand := [{ color := .red }] },
                { member_id := "B", name := "Bob",
                  hand := [{ color := .blue }] }]
    deck := []
    gifts_display := []
    turn := { player_id := "A", number := 1 } }

/-- The same session except Bob's one hand card is green instead of
blue. -/
def snapStateB : GameState :=
  { game_id := "game"
    room_id := "room"
    status := .active
    players := [{ member_id := "A", name := "Alice",
                  hand := [{ color := .red }] },
                { member_id := "B", name := "Bob",
                  hand := [{ color := .green }] }]
    deck := []
    gifts_display := []
    turn := { player_id := "A", number := 1 } }

/-- Witness for C8: changing the colour of Bob's hand card is invisible in
Alice's snapshot. -/
theorem c8_serialize_state_hand_privacy_witness :
    serialize_state snapStateA "A" = serialize_state snapStateB "A" :=
  c8_serialize_state_hand_privacy "A" snapStateA snapStateB
    ⟨rfl, rfl, rfl, rfl, rfl, rfl,
     List.Forall₂.cons ⟨rfl, rfl, rfl, rfl, rfl, rfl, rfl, fun _ => rfl⟩
       (List.Forall₂.cons
          ⟨rfl, rfl, rfl, rfl, rfl, rfl, rfl,
           fun hc => absurd hc (by decide)⟩
          List.Forall₂.nil)⟩

/-- Witness for C5: advancing the turn in the concrete `claimState`
(Alice at index 0 of 2 players) moves the turn to Bob and bumps the
number from 1 to 2. -/
theorem c5_advance_turn_round_robin_witness :
    ((advance_turn claimState).1).turn.player_id =
        (claimState.players.getD ((0 + 1) % claimState.players.length)
          defaultPlayer).member_id
    ∧ ((advance_turn claimState).1).turn.number = claimState.turn.number + 1
    ∧ claimState.turn.number ≤ ((advance_turn claimState).1).turn.number :=
  c5_advance_turn_round_robin claimState 0 (by decide)

end XmasShowdown
